import Mathlib

/-!
Shallow embedding of `Optimizer::LocalBundleAdjustment`
(src/src/OptimizerLocal.cc) from the CubeSLAM repository, together with
theorems checking the natural-language specification against it.

Modelling conventions:
- Opaque geometric quantities (cv::Mat poses, g2o cuboids, SE3 relative-pose
  measurements) are represented by integers; the external solver, the
  cuboid-to-camera transform `transformTo`, and the per-edge chi-square /
  positive-depth queries are oracle functions collected in an `Env` record,
  so every theorem quantifying over `Env` holds for the real g2o backend.
- Scene-graph objects are addressed by their unique ids (the spec guarantees
  uniqueness); pointer dereference becomes a `find?` by id, and a missing id
  (a dangling pointer, impossible in the C++ process) is skipped.
- The double thresholds 5.991 / 7.815 and pixel data live in `ℚ`; the claims
  at stake only concern the order structure of the comparisons.
- The cooperative stop flag is read twice by the source (lines 257 and 266);
  the two reads are modelled as a pair of booleans.
-/

namespace CubeSLAM

/-- An undistorted 2-D keypoint (`cv::KeyPoint`): pixel position and pyramid octave. -/
structure KeyPoint where
  px : ℚ
  py : ℚ
  octave : ℕ
deriving DecidableEq

/-- A `KeyFrame` of the scene graph, restricted to the fields read or written by
`Optimizer::LocalBundleAdjustment`. `pose` is the stored camera pose
(`GetPose`/`SetPose`), `camPoseTwc` the cached camera-to-world pose,
`landmarkMeasurements` the per-landmark relative-cuboid-pose cache
(an association list keyed by landmark id, modelling the `std::map`). -/
structure KeyFrame where
  mnId : ℕ
  isBad : Bool
  pose : ℤ
  camPoseTwc : ℤ
  mnBALocalForKF : ℕ
  mnBAFixedForKF : ℕ
  covisible : List ℕ
  mapPointMatches : List (Option ℕ)
  landmarkIds : List ℕ
  landmarkMeasurements : List (ℕ × ℤ)
  mvKeysUn : List KeyPoint
  mvuRight : List ℚ
  mvInvLevelSigma2 : List ℚ
  fx : ℚ
  fy : ℚ
  cx : ℚ
  cy : ℚ
  mbf : ℚ
deriving DecidableEq

/-- A `MapPoint`: world position, bad flag, BA stamp and the observation set
(pairs of observing KeyFrame id and keypoint index). -/
structure MapPoint where
  mnId : ℕ
  isBad : Bool
  worldPos : ℤ
  mnBALocalForKF : ℕ
  observations : List (ℕ × ℕ)
deriving DecidableEq

/-- An object `Landmark`: cuboid (opaque), detection/estimation quality. -/
structure Landmark where
  mnLandmarkId : ℕ
  cuboid : ℤ
  mQuality : ℚ
deriving DecidableEq

/-- The shared scene graph (`Map`). -/
structure SceneGraph where
  keyFrames : List KeyFrame
  mapPoints : List MapPoint
  landmarks : List Landmark
deriving DecidableEq

/-- Dereference a KeyFrame pointer by id. -/
def findKF (s : SceneGraph) (i : ℕ) : Option KeyFrame :=
  s.keyFrames.find? (fun kf => kf.mnId == i)

/-- Dereference a MapPoint pointer by id. -/
def findMP (s : SceneGraph) (i : ℕ) : Option MapPoint :=
  s.mapPoints.find? (fun p => p.mnId == i)

/-- Dereference a Landmark pointer by id. -/
def findLM (s : SceneGraph) (i : ℕ) : Option Landmark :=
  s.landmarks.find? (fun l => l.mnLandmarkId == i)

/-- Mutate the KeyFrame with id `i` in place. -/
def updateKF (s : SceneGraph) (i : ℕ) (f : KeyFrame → KeyFrame) : SceneGraph :=
  { s with keyFrames := s.keyFrames.map (fun kf => if kf.mnId == i then f kf else kf) }

/-- Mutate the MapPoint with id `i` in place. -/
def updateMP (s : SceneGraph) (i : ℕ) (f : MapPoint → MapPoint) : SceneGraph :=
  { s with mapPoints := s.mapPoints.map (fun p => if p.mnId == i then f p else p) }

/-- Mutate the Landmark with id `i` in place. -/
def updateLM (s : SceneGraph) (i : ℕ) (f : Landmark → Landmark) : SceneGraph :=
  { s with landmarks := s.landmarks.map (fun l => if l.mnLandmarkId == i then f l else l) }

/-- Write `m[k] = v` on the association-list model of `std::map`. -/
def mapSet (m : List (ℕ × ℤ)) (k : ℕ) (v : ℤ) : List (ℕ × ℤ) :=
  if m.any (fun p => p.1 == k) then m.map (fun p => if p.1 == k then (k, v) else p)
  else m ++ [(k, v)]

/-- Read `m[k]`; a missing key yields the default-constructed measurement
(`g2o::SE3Quat()`, modelled as `0`), as `std::map::operator[]` does. -/
def mapGetD (m : List (ℕ × ℤ)) (k : ℕ) : ℤ :=
  match m.find? (fun p => p.1 == k) with
  | some p => p.2
  | none => 0

/-- Estimate stored in an optimization vertex, tagged by vertex type
(`VertexSE3Expmap` / `VertexCuboid` / `VertexSBAPointXYZ`). -/
inductive VertexEst where
  | se3 (p : ℤ)
  | cuboid (c : ℤ)
  | point (x : ℤ)
deriving DecidableEq

/-- A g2o vertex: integer id, estimate, fixed flag, marginalization hint. -/
structure Vertex where
  vid : ℕ
  est : VertexEst
  isFixed : Bool
  marginalized : Bool
deriving DecidableEq

/-- A monocular reprojection edge (`g2o::EdgeSE3ProjectXYZ`) together with the
bookkeeping the source keeps alongside it (`vpEdgeKFMono`, `vpMapPointEdgeMono`). -/
structure MonoEdge where
  pointVid : ℕ
  kfVid : ℕ
  obsX : ℚ
  obsY : ℚ
  invSigma2 : ℚ
  robust : Bool
  level : ℕ
  kfId : ℕ
  mpId : ℕ
  fx : ℚ
  fy : ℚ
  cx : ℚ
  cy : ℚ
deriving DecidableEq

/-- A stereo reprojection edge (`g2o::EdgeStereoSE3ProjectXYZ`). -/
structure StereoEdge where
  pointVid : ℕ
  kfVid : ℕ
  obsX : ℚ
  obsY : ℚ
  obsUR : ℚ
  invSigma2 : ℚ
  robust : Bool
  level : ℕ
  kfId : ℕ
  mpId : ℕ
  fx : ℚ
  fy : ℚ
  cx : ℚ
  cy : ℚ
  bf : ℚ
deriving DecidableEq

/-- A camera-object edge (`g2o::EdgeSE3Cuboid`): pose vertex id, cuboid vertex
id, relative-pose measurement and the nine diagonal information entries. -/
structure CuboidEdge where
  kfVid : ℕ
  cuboidVid : ℕ
  meas : ℤ
  infoDiag : List ℚ
deriving DecidableEq

/-- The optimizer problem state: vertices plus the three edge containers. -/
structure OptGraph where
  vertices : List Vertex
  monoEdges : List MonoEdge
  stereoEdges : List StereoEdge
  cuboidEdges : List CuboidEdge
deriving DecidableEq

/-- `SparseOptimizer::addVertex`: fails (leaves the graph unchanged) if a
vertex with the same id is already present. -/
def addVertex (vs : List Vertex) (v : Vertex) : List Vertex :=
  if vs.any (fun w => w.vid == v.vid) then vs else vs ++ [v]

/-- `SparseOptimizer::vertex(id)`. -/
def findVertex (vs : List Vertex) (i : ℕ) : Option Vertex :=
  vs.find? (fun v => v.vid == i)

/-- A g2o vertex never changes type: an estimate update is accepted only when
it matches the vertex kind. -/
def setEst (old new : VertexEst) : VertexEst :=
  match old, new with
  | .se3 _, .se3 p => .se3 p
  | .cuboid _, .cuboid c => .cuboid c
  | .point _, .point x => .point x
  | o, _ => o

/-- Kind test: pose estimate. -/
def VertexEst.isSE3 : VertexEst → Bool
  | .se3 _ => true
  | _ => false

/-- Kind test: cuboid estimate. -/
def VertexEst.isCuboid : VertexEst → Bool
  | .cuboid _ => true
  | _ => false

/-- Kind test: point estimate. -/
def VertexEst.isPoint : VertexEst → Bool
  | .point _ => true
  | _ => false

/-- Oracle interface for the external collaborators: the cuboid-to-camera-frame
transform (`Cuboid::transformTo`), the Levenberg-Marquardt solver (new estimate
of a vertex after `optimize(iters)` on a given problem), and the per-edge
chi-square / positive-depth queries evaluated at a vertex-estimate snapshot.
Edges are addressed by their index in the corresponding edge vector. -/
structure Env where
  transformTo : ℤ → ℤ → ℤ
  optimize : ℕ → OptGraph → ℕ → VertexEst → VertexEst
  chi2Mono : List Vertex → ℕ → ℚ
  depthPosMono : List Vertex → ℕ → Bool
  chi2Stereo : List Vertex → ℕ → ℚ
  depthPosStereo : List Vertex → ℕ → Bool

/-- One `optimizer.optimize(iters)` call: every non-fixed vertex receives a
solver-chosen estimate of its own kind; fixed vertices are untouched. -/
def runOptimize (env : Env) (iters : ℕ) (g : OptGraph) : List Vertex :=
  g.vertices.map (fun v =>
    if v.isFixed then v else { v with est := setEst v.est (env.optimize iters g v.vid v.est) })

/-- Point vertex id at creation (line 167): `pMP->mnId + maxKFId + maxLandmarkId + 2`. -/
def pointVertexId (maxKFId maxLandmarkId mnId : ℕ) : ℕ :=
  mnId + maxKFId + maxLandmarkId + 2

/-- Vertex id used at point-result recovery (line 368): `pMP->mnId + maxKFId + 1`. -/
def pointRecoveryId (maxKFId mnId : ℕ) : ℕ :=
  mnId + maxKFId + 1

/-- Cuboid vertex id (lines 133 and 213 and 361): `maxKFId + 1 + mnLandmarkId`. -/
def landmarkVertexId (maxKFId lid : ℕ) : ℕ :=
  maxKFId + 1 + lid

/-- Monocular outlier test (lines 280 and 319): `chi2 > 5.991 || !isDepthPositive`. -/
def monoOutlier (chi2 : ℚ) (depthPos : Bool) : Bool :=
  decide (chi2 > mkRat 5991 1000) || !depthPos

/-- Stereo outlier test (lines 294 and 332): `chi2 > 7.815 || !isDepthPositive`. -/
def stereoOutlier (chi2 : ℚ) (depthPos : Bool) : Bool :=
  decide (chi2 > mkRat 7815 1000) || !depthPos

/-- Camera-object information diagonal (lines 215-218): start from all-ones,
scale by `2 * quality`, square componentwise. -/
def cuboidInfoDiag (quality : ℚ) : List ℚ :=
  ((List.replicate 9 (1 : ℚ)).map (fun x => x * (2 * quality))).map (fun x => x * x)

/-- Output of a window-selection stage: collected ids plus the mutated scene. -/
structure SelOut where
  ids : List ℕ
  scene : SceneGraph
deriving DecidableEq

/-- Lines 44-54: the trigger KeyFrame and its non-bad covisible neighbours are
collected; all of them (bad ones included) get the `mnBALocalForKF` stamp. -/
def selectLocalKFs (s : SceneGraph) (pKFid : ℕ) : SelOut :=
  let s1 := updateKF s pKFid (fun kf => { kf with mnBALocalForKF := pKFid })
  let neigh := match findKF s1 pKFid with
    | some kf => kf.covisible
    | none => []
  neigh.foldl
    (fun acc kfi =>
      let s2 := updateKF acc.scene kfi (fun kf => { kf with mnBALocalForKF := pKFid })
      match findKF s2 kfi with
      | some kf => if kf.isBad then { acc with scene := s2 } else ⟨acc.ids ++ [kfi], s2⟩
      | none => { acc with scene := s2 })
    ⟨[pKFid], s1⟩

/-- Lines 56-68: MapPoints matched in any local KeyFrame, non-null, non-bad,
deduplicated through the `mnBALocalForKF` stamp. -/
def selectLocalMPs (s : SceneGraph) (pKFid : ℕ) (localKFs : List ℕ) : SelOut :=
  localKFs.foldl
    (fun acc kfId =>
      let ms := match findKF acc.scene kfId with
        | some kf => kf.mapPointMatches
        | none => []
      ms.foldl
        (fun acc2 m =>
          match m with
          | none => acc2
          | some pid =>
            match findMP acc2.scene pid with
            | none => acc2
            | some p =>
              if p.isBad then acc2
              else if p.mnBALocalForKF == pKFid then acc2
              else ⟨acc2.ids ++ [pid],
                    updateMP acc2.scene pid (fun q => { q with mnBALocalForKF := pKFid })⟩)
        acc)
    ⟨[], s⟩

/-- Lines 70-83: KeyFrames observing a local MapPoint that carry neither the
local nor the fixed stamp are stamped fixed and, when non-bad, collected. -/
def selectFixedCams (s : SceneGraph) (pKFid : ℕ) (localMPs : List ℕ) : SelOut :=
  localMPs.foldl
    (fun acc pid =>
      let obs := match findMP acc.scene pid with
        | some p => p.observations
        | none => []
      obs.foldl
        (fun acc2 ob =>
          match findKF acc2.scene ob.1 with
          | none => acc2
          | some kf =>
            if kf.mnBALocalForKF ≠ pKFid ∧ kf.mnBAFixedForKF ≠ pKFid then
              let s3 := updateKF acc2.scene ob.1 (fun k => { k with mnBAFixedForKF := pKFid })
              if kf.isBad then { acc2 with scene := s3 } else ⟨acc2.ids ++ [ob.1], s3⟩
            else acc2)
        acc)
    ⟨[], s⟩

/-- Fold state for the local-KeyFrame vertex pass (lines 98-116). -/
structure KFVertOut where
  lmIds : List ℕ
  scene : SceneGraph
  vertices : List Vertex
  maxKFId : ℕ
deriving DecidableEq

/-- Lines 102-116, one local KeyFrame: collect its landmarks into the local
landmark set, refresh its relative-cuboid-pose cache, create its (free unless
id 0) pose vertex, and fold the running `maxKFId`. -/
def localKFStep (env : Env) (acc : KFVertOut) (kfId : ℕ) : KFVertOut :=
  match findKF acc.scene kfId with
  | none => acc
  | some kf =>
    let inner := kf.landmarkIds.foldl
      (fun (a : SelOut) lid =>
        match findLM a.scene lid with
        | none => a
        | some lm =>
          ⟨if a.ids.contains lid then a.ids else a.ids ++ [lid],
           updateKF a.scene kfId (fun k =>
             { k with landmarkMeasurements :=
                 mapSet k.landmarkMeasurements lid (env.transformTo lm.cuboid kf.camPoseTwc) })⟩)
      ⟨acc.lmIds, acc.scene⟩
    { lmIds := inner.ids, scene := inner.scene,
      vertices := addVertex acc.vertices
        { vid := kf.mnId, est := .se3 kf.pose, isFixed := kf.mnId == 0, marginalized := false },
      maxKFId := if kf.mnId > acc.maxKFId then kf.mnId else acc.maxKFId }

/-- Lines 98-116: the local KeyFrame vertex pass. -/
def addLocalKFVertices (env : Env) (s : SceneGraph) (localKFs : List ℕ) : KFVertOut :=
  localKFs.foldl (localKFStep env) ⟨[], s, [], 0⟩

/-- Fold state for the remaining vertex passes. -/
structure VertMax where
  vertices : List Vertex
  maxId : ℕ
deriving DecidableEq

/-- Lines 119-127, one fixed KeyFrame: an always-fixed pose vertex. -/
def fixedKFStep (s : SceneGraph) (acc : VertMax) (kfId : ℕ) : VertMax :=
  match findKF s kfId with
  | none => acc
  | some kf =>
    { vertices := addVertex acc.vertices
        { vid := kf.mnId, est := .se3 kf.pose, isFixed := true, marginalized := false },
      maxId := if kf.mnId > acc.maxId then kf.mnId else acc.maxId }

/-- Lines 118-127: the fixed KeyFrame vertex pass; continues the `maxKFId` fold. -/
def addFixedKFVertices (s : SceneGraph) (fixedCams : List ℕ) (vs : List Vertex)
    (maxKFId : ℕ) : VertMax :=
  fixedCams.foldl (fixedKFStep s) ⟨vs, maxKFId⟩

/-- Lines 129-138, one landmark: a free cuboid vertex at `maxKFId + 1 + id`;
folds the running `maxLandmarkId`. -/
def landmarkStep (s : SceneGraph) (maxKFId : ℕ) (acc : VertMax) (lid : ℕ) : VertMax :=
  match findLM s lid with
  | none => acc
  | some lm =>
    { vertices := addVertex acc.vertices
        { vid := landmarkVertexId maxKFId lid, est := .cuboid lm.cuboid, isFixed := false,
          marginalized := false },
      maxId := if lid > acc.maxId then lid else acc.maxId }

/-- Lines 129-138: the cuboid vertex pass (`maxLandmarkId` starts at 0, line 98). -/
def addLandmarkVertices (s : SceneGraph) (localLMs : List ℕ) (maxKFId : ℕ)
    (vs : List Vertex) : VertMax :=
  localLMs.foldl (landmarkStep s maxKFId) ⟨vs, 0⟩

/-- Lines 210-220, one landmark of the observing KeyFrame: a camera-object
edge with the currently cached relative pose as measurement and isotropic
`(2 * quality)^2` information. -/
def cuboidEdgeStep (s : SceneGraph) (maxKFId : ℕ) (kf : KeyFrame) (g : OptGraph)
    (lid : ℕ) : OptGraph :=
  match findLM s lid with
  | none => g
  | some lm =>
    { g with cuboidEdges := g.cuboidEdges ++
        [{ kfVid := kf.mnId, cuboidVid := landmarkVertexId maxKFId lid,
           meas := mapGetD kf.landmarkMeasurements lid,
           infoDiag := cuboidInfoDiag lm.mQuality }] }

/-- Lines 208-221: the per-landmark camera-object edges of one monocular
observation. -/
def addCuboidEdges (s : SceneGraph) (maxKFId : ℕ) (kf : KeyFrame) (g : OptGraph) : OptGraph :=
  kf.landmarkIds.foldl (cuboidEdgeStep s maxKFId kf) g

/-- Lines 175-254, one observation of the current MapPoint: a mono edge (plus
the per-landmark camera-object edges) when the stereo right-x is negative,
otherwise a stereo edge; bad observers are skipped. -/
def obsStep (s : SceneGraph) (maxKFId : ℕ) (vid mpId : ℕ) (g : OptGraph) (ob : ℕ × ℕ) :
    OptGraph :=
  match findKF s ob.1 with
  | none => g
  | some kf =>
    if kf.isBad then g
    else
      let kp := kf.mvKeysUn.getD ob.2 ⟨0, 0, 0⟩
      let invSigma2 := kf.mvInvLevelSigma2.getD kp.octave 0
      if kf.mvuRight.getD ob.2 0 < 0 then
        addCuboidEdges s maxKFId kf
          { g with monoEdges := g.monoEdges ++
              [{ pointVid := vid, kfVid := kf.mnId, obsX := kp.px, obsY := kp.py,
                 invSigma2 := invSigma2, robust := true, level := 0,
                 kfId := kf.mnId, mpId := mpId,
                 fx := kf.fx, fy := kf.fy, cx := kf.cx, cy := kf.cy }] }
      else
        { g with stereoEdges := g.stereoEdges ++
            [{ pointVid := vid, kfVid := kf.mnId, obsX := kp.px, obsY := kp.py,
               obsUR := kf.mvuRight.getD ob.2 0,
               invSigma2 := invSigma2, robust := true, level := 0,
               kfId := kf.mnId, mpId := mpId,
               fx := kf.fx, fy := kf.fy, cx := kf.cx, cy := kf.cy, bf := kf.mbf }] }

/-- Lines 164-255, one MapPoint: a marginalized point vertex at
`pointVertexId`, then the edges of its observations. -/
def pointStep (s : SceneGraph) (maxKFId maxLandmarkId : ℕ) (g : OptGraph) (pid : ℕ) :
    OptGraph :=
  match findMP s pid with
  | none => g
  | some p =>
    let vid := pointVertexId maxKFId maxLandmarkId p.mnId
    let pv : Vertex :=
      { vid := vid, est := .point p.worldPos, isFixed := false, marginalized := true }
    let g1 := { g with vertices := addVertex g.vertices pv }
    p.observations.foldl (obsStep s maxKFId vid p.mnId) g1

/-- Lines 164-255: the MapPoint vertex and reprojection-edge pass. -/
def buildPointEdges (s : SceneGraph) (localMPs : List ℕ) (maxKFId maxLandmarkId : ℕ)
    (vs : List Vertex) : OptGraph :=
  localMPs.foldl (pointStep s maxKFId maxLandmarkId)
    { vertices := vs, monoEdges := [], stereoEdges := [], cuboidEdges := [] }

/-- Lines 273-285, one mono edge of the outlier-marking pass: edges of bad
points are skipped entirely; failing edges are demoted to level 1; every
processed edge loses its robust kernel, inlier or not. -/
def markMonoEdge (env : Env) (s : SceneGraph) (est : List Vertex) (i : ℕ) (e : MonoEdge) :
    MonoEdge :=
  match findMP s e.mpId with
  | none => e
  | some p =>
    if p.isBad then e
    else
      let e1 := if monoOutlier (env.chi2Mono est i) (env.depthPosMono est i)
                then { e with level := 1 } else e
      { e1 with robust := false }

/-- Lines 273-285: the mono outlier-marking pass. -/
def markMonoEdges (env : Env) (s : SceneGraph) (est : List Vertex) :
    ℕ → List MonoEdge → List MonoEdge
  | _, [] => []
  | i, e :: rest => markMonoEdge env s est i e :: markMonoEdges env s est (i + 1) rest

/-- Lines 287-299, one stereo edge of the outlier-marking pass. -/
def markStereoEdge (env : Env) (s : SceneGraph) (est : List Vertex) (i : ℕ) (e : StereoEdge) :
    StereoEdge :=
  match findMP s e.mpId with
  | none => e
  | some p =>
    if p.isBad then e
    else
      let e1 := if stereoOutlier (env.chi2Stereo est i) (env.depthPosStereo est i)
                then { e with level := 1 } else e
      { e1 with robust := false }

/-- Lines 287-299: the stereo outlier-marking pass. -/
def markStereoEdges (env : Env) (s : SceneGraph) (est : List Vertex) :
    ℕ → List StereoEdge → List StereoEdge
  | _, [] => []
  | i, e :: rest => markStereoEdge env s est i e :: markStereoEdges env s est (i + 1) rest

/-- Lines 312-323: final mono classification; failing edges of non-bad points
are queued as (KeyFrame id, MapPoint id) pairs for link removal. -/
def classifyMono (env : Env) (s : SceneGraph) (est : List Vertex) :
    ℕ → List MonoEdge → List (ℕ × ℕ)
  | _, [] => []
  | i, e :: rest =>
    let tail := classifyMono env s est (i + 1) rest
    match findMP s e.mpId with
    | none => tail
    | some p =>
      if p.isBad then tail
      else if monoOutlier (env.chi2Mono est i) (env.depthPosMono est i) then
        (e.kfId, e.mpId) :: tail
      else tail

/-- Lines 325-336: final stereo classification. -/
def classifyStereo (env : Env) (s : SceneGraph) (est : List Vertex) :
    ℕ → List StereoEdge → List (ℕ × ℕ)
  | _, [] => []
  | i, e :: rest =>
    let tail := classifyStereo env s est (i + 1) rest
    match findMP s e.mpId with
    | none => tail
    | some p =>
      if p.isBad then tail
      else if stereoOutlier (env.chi2Stereo est i) (env.depthPosStereo est i) then
        (e.kfId, e.mpId) :: tail
      else tail

/-- Modelled from the spec: `KeyFrame::EraseMapPointMatch` nulls the match
entries pointing at the given MapPoint (the member lives outside src/). -/
def eraseMapPointMatch (kf : KeyFrame) (pid : ℕ) : KeyFrame :=
  { kf with mapPointMatches := kf.mapPointMatches.map (fun m => if m == some pid then none else m) }

/-- Modelled from the spec: `MapPoint::EraseObservation` removes the KeyFrame
from the observation set (the member lives outside src/). -/
def eraseObservation (p : MapPoint) (kfId : ℕ) : MapPoint :=
  { p with observations := p.observations.filter (fun ob => !(ob.1 == kfId)) }

/-- Lines 341-348: sever every queued (KeyFrame, MapPoint) link on both sides. -/
def commitErase (s : SceneGraph) (v : List (ℕ × ℕ)) : SceneGraph :=
  v.foldl
    (fun s pr =>
      updateMP (updateKF s pr.1 (fun kf => eraseMapPointMatch kf pr.2)) pr.2
        (fun p => eraseObservation p pr.1))
    s

/-- Lines 352-357: write every local KeyFrame's optimized pose back. -/
def commitPoses (s : SceneGraph) (est : List Vertex) (localKFs : List ℕ) : SceneGraph :=
  localKFs.foldl
    (fun s kfId =>
      match findVertex est kfId with
      | some v =>
        match v.est with
        | .se3 p => updateKF s kfId (fun kf => { kf with pose := p })
        | _ => s
      | none => s)
    s

/-- Lines 359-364: write every local Landmark's optimized cuboid back. -/
def commitLandmarks (s : SceneGraph) (est : List Vertex) (localLMs : List ℕ)
    (maxKFId : ℕ) : SceneGraph :=
  localLMs.foldl
    (fun s lid =>
      match findVertex est (landmarkVertexId maxKFId lid) with
      | some v =>
        match v.est with
        | .cuboid c => updateLM s lid (fun lm => { lm with cuboid := c })
        | _ => s
      | none => s)
    s

/-- Lines 366-371: point write-back; the source looks the vertex up at
`pointRecoveryId`, not at the `pointVertexId` it created the vertex with.
A failed lookup or a type-mismatched dynamic cast (a null dereference in the
C++ process) is modelled as skipping the write. -/
def commitPoints (s : SceneGraph) (est : List Vertex) (localMPs : List ℕ)
    (maxKFId : ℕ) : SceneGraph :=
  localMPs.foldl
    (fun s pid =>
      match findVertex est (pointRecoveryId maxKFId pid) with
      | some v =>
        match v.est with
        | .point x => updateMP s pid (fun p => { p with worldPos := x })
        | _ => s
      | none => s)
    s

/-- First read of `*pbStopFlag` (line 258); `none` models a null flag pointer. -/
def stopAtFirstCheck : Option (Bool × Bool) → Bool
  | none => false
  | some st => st.1

/-- Second read of `*pbStopFlag` (line 267). -/
def stopAtSecondCheck : Option (Bool × Bool) → Bool
  | none => false
  | some st => st.2

/-- Everything `Optimizer::LocalBundleAdjustment` computes, exposed for the
theorems: the final scene, the scene as it stood when the factor graph was
built, the four selected windows, the two id bounds, the optimizer graph, the
estimates after the first optimize and at the end, the erase queue, the list
of optimize-iteration budgets actually run, and the early-return flag. -/
structure LBAResult where
  scene : SceneGraph
  sceneAtBuild : SceneGraph
  localKFs : List ℕ
  localMPs : List ℕ
  fixedCams : List ℕ
  localLMs : List ℕ
  maxKFId : ℕ
  maxLandmarkId : ℕ
  graph : OptGraph
  estimates1 : List Vertex
  finalEstimates : List Vertex
  vToErase : List (ℕ × ℕ)
  trace : List ℕ
  stoppedEarly : Bool
deriving DecidableEq

/-- Lines 118-372, from the local-KeyFrame vertex pass on: the remaining
vertex passes, the factor-graph build, both stop checks, the two solver
invocations, the outlier passes and the commit. -/
def lbaStage4 (env : Env) (pKFid : ℕ) (stopFlag : Option (Bool × Bool))
    (localKFs localMPs fixedCams : List ℕ) (kfv : KFVertOut) : LBAResult :=
  let fxv := addFixedKFVertices kfv.scene fixedCams kfv.vertices kfv.maxKFId
  let lmv := addLandmarkVertices kfv.scene kfv.lmIds fxv.maxId fxv.vertices
  let g0 := buildPointEdges kfv.scene localMPs fxv.maxId lmv.maxId lmv.vertices
  if stopAtFirstCheck stopFlag then
    { scene := kfv.scene, sceneAtBuild := kfv.scene,
      localKFs := localKFs, localMPs := localMPs, fixedCams := fixedCams,
      localLMs := kfv.lmIds, maxKFId := fxv.maxId, maxLandmarkId := lmv.maxId,
      graph := g0, estimates1 := g0.vertices, finalEstimates := g0.vertices,
      vToErase := [], trace := [], stoppedEarly := true }
  else
    let est1 := runOptimize env 5 g0
    let bDoMore := !stopAtSecondCheck stopFlag
    let g2 :=
      if bDoMore then
        { g0 with
          vertices := est1
          monoEdges := markMonoEdges env kfv.scene est1 0 g0.monoEdges
          stereoEdges := markStereoEdges env kfv.scene est1 0 g0.stereoEdges }
      else { g0 with vertices := est1 }
    let estF := if bDoMore then runOptimize env 10 g2 else est1
    let tr := if bDoMore then [5, 10] else [5]
    let vErase := classifyMono env kfv.scene estF 0 g2.monoEdges
                  ++ classifyStereo env kfv.scene estF 0 g2.stereoEdges
    let sE := commitErase kfv.scene vErase
    let sP := commitPoses sE estF localKFs
    let sL := commitLandmarks sP estF kfv.lmIds fxv.maxId
    let sPt := commitPoints sL estF localMPs fxv.maxId
    { scene := sPt, sceneAtBuild := kfv.scene,
      localKFs := localKFs, localMPs := localMPs, fixedCams := fixedCams,
      localLMs := kfv.lmIds, maxKFId := fxv.maxId, maxLandmarkId := lmv.maxId,
      graph := { g2 with vertices := estF }, estimates1 := est1, finalEstimates := estF,
      vToErase := vErase, trace := tr, stoppedEarly := false }

/-- Pipeline stage after fixed-camera selection. -/
def lbaStage3 (env : Env) (pKFid : ℕ) (stopFlag : Option (Bool × Bool))
    (localKFs localMPs : List ℕ) (selF : SelOut) : LBAResult :=
  lbaStage4 env pKFid stopFlag localKFs localMPs selF.ids
    (addLocalKFVertices env selF.scene localKFs)

/-- Pipeline stage after local-MapPoint selection. -/
def lbaStage2 (env : Env) (pKFid : ℕ) (stopFlag : Option (Bool × Bool))
    (localKFs : List ℕ) (selP : SelOut) : LBAResult :=
  lbaStage3 env pKFid stopFlag localKFs selP.ids
    (selectFixedCams selP.scene pKFid selP.ids)

/-- Pipeline stage after local-KeyFrame selection. -/
def lbaStage1 (env : Env) (pKFid : ℕ) (stopFlag : Option (Bool × Bool))
    (selL : SelOut) : LBAResult :=
  lbaStage2 env pKFid stopFlag selL.ids (selectLocalMPs selL.scene pKFid selL.ids)

/-- `Optimizer::LocalBundleAdjustment` (lines 41-372). -/
def LocalBundleAdjustment (env : Env) (s0 : SceneGraph) (pKFid : ℕ)
    (stopFlag : Option (Bool × Bool)) : LBAResult :=
  lbaStage1 env pKFid stopFlag (selectLocalKFs s0 pKFid)

/-- Erase per-run bookkeeping from a KeyFrame: the two BA stamps and the
relative-cuboid-pose cache. Everything else (pose, matches, calibration,
keypoints) is kept. -/
def stripKF (kf : KeyFrame) : KeyFrame :=
  { kf with mnBALocalForKF := 0, mnBAFixedForKF := 0, landmarkMeasurements := [] }

/-- Erase per-run bookkeeping from a MapPoint: its BA stamp. -/
def stripMP (p : MapPoint) : MapPoint :=
  { p with mnBALocalForKF := 0 }

/-- The scene graph modulo per-run bookkeeping (BA stamps and measurement
caches); equality under `stripScene` means every pose, position, cuboid,
match table and observation set is unchanged. -/
def stripScene (s : SceneGraph) : SceneGraph :=
  { keyFrames := s.keyFrames.map stripKF, mapPoints := s.mapPoints.map stripMP,
    landmarks := s.landmarks }

/-- Stored pose of the KeyFrame with id `i`. -/
def poseOf (s : SceneGraph) (i : ℕ) : Option ℤ :=
  (findKF s i).map (fun kf => kf.pose)

/-- Local-BA stamp of the KeyFrame with id `i`. -/
def stampOf (s : SceneGraph) (i : ℕ) : Option ℕ :=
  (findKF s i).map (fun kf => kf.mnBALocalForKF)

/-- A KeyFrame with id `i` and neutral remaining fields, for concrete scenes. -/
def mkKF (i : ℕ) : KeyFrame :=
  { mnId := i, isBad := false, pose := 0, camPoseTwc := 0, mnBALocalForKF := 0,
    mnBAFixedForKF := 0, covisible := [], mapPointMatches := [], landmarkIds := [],
    landmarkMeasurements := [], mvKeysUn := [], mvuRight := [], mvInvLevelSigma2 := [],
    fx := 1, fy := 1, cx := 0, cy := 0, mbf := 0 }

/-- A MapPoint with id `i` and neutral remaining fields. -/
def mkMP (i : ℕ) : MapPoint :=
  { mnId := i, isBad := false, worldPos := 0, mnBALocalForKF := 0, observations := [] }

/-- A concrete environment: the transform is addition, the solver returns the
estimates unchanged, every residual is a perfect inlier. -/
def idEnv : Env :=
  { transformTo := fun c p => c + p,
    optimize := fun _ _ _ e => e,
    chi2Mono := fun _ _ => 0, depthPosMono := fun _ _ => true,
    chi2Stereo := fun _ _ => 0, depthPosStereo := fun _ _ => true }

/-- A concrete environment whose solver moves every point estimate by 42,
distinguishing optimized estimates from initial ones. -/
def bumpEnv : Env :=
  { idEnv with optimize := fun _ _ _ e =>
      match e with
      | .point x => .point (x + 42)
      | e => e }

/-- Concrete scene for the point-recovery bug: one KeyFrame (id 3) observing
one MapPoint (id 0) monocularly, no landmarks. -/
def sceneA : SceneGraph :=
  { keyFrames := [{ mkKF 3 with
      mapPointMatches := [some 0]
      mvKeysUn := [⟨0, 0, 0⟩]
      mvuRight := [-1]
      mvInvLevelSigma2 := [1] }],
    mapPoints := [{ mkMP 0 with worldPos := 7, observations := [(3, 0)] }],
    landmarks := [] }

/-- Concrete scene for the stop-before-start counterexample: one KeyFrame with
id 1 whose local-BA stamp is initially 0. -/
def sceneB : SceneGraph :=
  { keyFrames := [mkKF 1], mapPoints := [], landmarks := [] }

/-- Concrete scene with a fixed camera and a shared landmark: KeyFrame 1
(trigger) and KeyFrame 2 (not covisible, hence fixed) both observe MapPoint 10
monocularly and both have Landmark 7 associated; KeyFrame 2 carries a stale
cached measurement 999 for it from before the call. -/
def sceneC : SceneGraph :=
  { keyFrames :=
      [{ mkKF 1 with
         camPoseTwc := 100
         mapPointMatches := [some 10]
         landmarkIds := [7]
         mvKeysUn := [⟨0, 0, 0⟩]
         mvuRight := [-1]
         mvInvLevelSigma2 := [1] },
       { mkKF 2 with
         camPoseTwc := 200
         mapPointMatches := [some 10]
         landmarkIds := [7]
         landmarkMeasurements := [(7, 999)]
         mvKeysUn := [⟨0, 0, 0⟩]
         mvuRight := [-1]
         mvInvLevelSigma2 := [1] }],
    mapPoints := [{ mkMP 10 with observations := [(1, 0), (2, 0)] }],
    landmarks := [{ mnLandmarkId := 7, cuboid := 5, mQuality := mkRat 1 2 }] }

/-- A concrete monocular edge observing MapPoint 0 from KeyFrame 3, as built
on `sceneA`. -/
def monoEdgeW : MonoEdge :=
  { pointVid := 5, kfVid := 3, obsX := 0, obsY := 0, invSigma2 := 1, robust := true,
    level := 0, kfId := 3, mpId := 0, fx := 1, fy := 1, cx := 0, cy := 0 }

/-- A concrete stereo edge observing MapPoint 0 from KeyFrame 3. -/
def stereoEdgeW : StereoEdge :=
  { pointVid := 5, kfVid := 3, obsX := 0, obsY := 0, obsUR := 2, invSigma2 := 1,
    robust := true, level := 0, kfId := 3, mpId := 0, fx := 1, fy := 1, cx := 0, cy := 0,
    bf := 0 }

/-- Number of monocular reprojection edges the graph holds for observing
KeyFrame `k` (via the `vpEdgeKFMono` bookkeeping). -/
def monoCountFor (g : OptGraph) (k : ℕ) : ℕ :=
  (g.monoEdges.filter (fun e => e.kfId == k)).length

/-- Number of camera-object edges whose pose-vertex side is KeyFrame `k`. -/
def cuboidCountFor (g : OptGraph) (k : ℕ) : ℕ :=
  (g.cuboidEdges.filter (fun e => e.kfVid == k)).length

/-- Number of landmarks of `kf` that dereference successfully in scene `s`
(in the C++ process every associated landmark pointer is valid). -/
def landmarksFound (s : SceneGraph) (kf : KeyFrame) : ℕ :=
  (kf.landmarkIds.filter (fun lid => (findLM s lid).isSome)).length

/-- What lines 208-221 actually put on a camera-object edge: the observing
KeyFrame is dereferenced from the scene as it stands at graph-build time, the
landmark id is one of that KeyFrame's associated landmarks, the measurement is
the entry currently stored in that KeyFrame's landmark-measurement cache
(`landmarkMeasurements[lid]`, default-constructed if absent), and the
information diagonal is `(2 * quality)^2`. -/
def CuboidEdgeSpec (s : SceneGraph) (M : ℕ) (e : CuboidEdge) : Prop :=
  ∃ kf lid lm, findKF s e.kfVid = some kf ∧ lid ∈ kf.landmarkIds ∧
    findLM s lid = some lm ∧ e.cuboidVid = landmarkVertexId M lid ∧
    e.meas = mapGetD kf.landmarkMeasurements lid ∧
    e.infoDiag = cuboidInfoDiag lm.mQuality

/-- Invariant of the pose vertices (lines 109-127): an SE3 estimate, id bounded
by `maxKFId`, and either created fixed (fixed-camera pass, or the id-0 rule) or
created for a KeyFrame stamped local in the build scene. -/
def SE3VertexInv (sD : SceneGraph) (p M : ℕ) (v : Vertex) : Prop :=
  v.est.isSE3 = true ∧ v.vid ≤ M ∧
    (v.isFixed = true ∨ (v.isFixed = (v.vid == 0) ∧ stampOf sD v.vid = some p))

/-- Invariant of the cuboid vertices (lines 129-138): id in
`[maxKFId + 1, maxKFId + 1 + maxLandmarkId]`. -/
def CuboidVertexInv (M L : ℕ) (v : Vertex) : Prop :=
  v.est.isCuboid = true ∧ M + 1 ≤ v.vid ∧ v.vid ≤ M + 1 + L

/-- Invariant of the point vertices (line 167): id at least
`maxKFId + maxLandmarkId + 2`, strictly above every pose and cuboid id. -/
def PointVertexInv (M L : ℕ) (v : Vertex) : Prop :=
  v.est.isPoint = true ∧ M + L + 2 ≤ v.vid

/-- KeyFrame 1 of `sceneC` as it stands at graph-build time: stamped local,
with its landmark-measurement cache refreshed to `transformTo 5 100 = 105`. -/
def kfW : KeyFrame :=
  { mnId := 1, isBad := false, pose := 0, camPoseTwc := 100, mnBALocalForKF := 1,
    mnBAFixedForKF := 0, covisible := [], mapPointMatches := [some 10], landmarkIds := [7],
    landmarkMeasurements := [(7, 105)], mvKeysUn := [⟨0, 0, 0⟩], mvuRight := [-1],
    mvInvLevelSigma2 := [1], fx := 1, fy := 1, cx := 0, cy := 0, mbf := 0 }

theorem foldl_pres {α σ β : Type _} (F : σ → β) (step : σ → α → σ) :
    ∀ (l : List α) (acc : σ), (∀ a x, x ∈ l → F (step a x) = F a) →
      F (List.foldl step acc l) = F acc := by
  intro l
  induction l with
  | nil => intro acc _; rfl
  | cons x t ih =>
    intro acc h
    rw [List.foldl_cons, ih (step acc x) (fun a y hy => h a y (List.mem_cons_of_mem x hy))]
    exact h acc x (List.mem_cons_self x t)

theorem foldl_inv {α σ : Type _} (P : σ → Prop) (step : σ → α → σ) :
    ∀ (l : List α) (acc : σ), (∀ a x, x ∈ l → P a → P (step a x)) → P acc →
      P (List.foldl step acc l) := by
  intro l
  induction l with
  | nil => intro acc _ h0; exact h0
  | cons x t ih =>
    intro acc h h0
    rw [List.foldl_cons]
    exact ih (step acc x) (fun a y hy => h a y (List.mem_cons_of_mem x hy))
      (h acc x (List.mem_cons_self x t) h0)

theorem find?_map_of_pred {α : Type _} (l : List α) (g : α → α) (p : α → Bool)
    (hg : ∀ a, p (g a) = p a) :
    (l.map g).find? p = (l.find? p).map g := by
  induction l with
  | nil => rfl
  | cons a t ih =>
    simp only [List.map_cons]
    cases hpa : p a with
    | true =>
      rw [List.find?_cons_of_pos _ (by rw [hg, hpa]), List.find?_cons_of_pos _ hpa]
      rfl
    | false =>
      rw [List.find?_cons_of_neg _ (by rw [hg, hpa]; simp), List.find?_cons_of_neg _ (by rw [hpa]; simp)]
      exact ih

theorem findKF_mnId {s : SceneGraph} {i : ℕ} {kf : KeyFrame} (h : findKF s i = some kf) :
    kf.mnId = i := by
  have := List.find?_some h
  simpa using this

theorem findMP_mnId {s : SceneGraph} {i : ℕ} {p : MapPoint} (h : findMP s i = some p) :
    p.mnId = i := by
  have := List.find?_some h
  simpa using this

theorem findKF_updateKF (s : SceneGraph) (j : ℕ) (f : KeyFrame → KeyFrame)
    (hf : ∀ kf, (f kf).mnId = kf.mnId) (i : ℕ) :
    findKF (updateKF s j f) i =
      (findKF s i).map (fun kf => if kf.mnId == j then f kf else kf) := by
  unfold findKF updateKF
  exact find?_map_of_pred _ _ _ (fun kf => by
    by_cases h : (kf.mnId == j) = true <;> simp [h, hf])

theorem findKF_updateKF_ne {s : SceneGraph} {j : ℕ} {f : KeyFrame → KeyFrame}
    (hf : ∀ kf, (f kf).mnId = kf.mnId) {i : ℕ} (hne : i ≠ j) :
    findKF (updateKF s j f) i = findKF s i := by
  rw [findKF_updateKF s j f hf i]
  cases h : findKF s i with
  | none => rfl
  | some kf =>
    have hm : kf.mnId = i := findKF_mnId h
    simp [hm, hne]

theorem findKF_updateMP (s : SceneGraph) (j : ℕ) (f : MapPoint → MapPoint) (i : ℕ) :
    findKF (updateMP s j f) i = findKF s i := rfl

theorem findKF_updateLM (s : SceneGraph) (j : ℕ) (f : Landmark → Landmark) (i : ℕ) :
    findKF (updateLM s j f) i = findKF s i := rfl

theorem findMP_updateKF (s : SceneGraph) (j : ℕ) (f : KeyFrame → KeyFrame) (i : ℕ) :
    findMP (updateKF s j f) i = findMP s i := rfl

theorem findMP_updateLM (s : SceneGraph) (j : ℕ) (f : Landmark → Landmark) (i : ℕ) :
    findMP (updateLM s j f) i = findMP s i := rfl

theorem findLM_updateKF (s : SceneGraph) (j : ℕ) (f : KeyFrame → KeyFrame) (i : ℕ) :
    findLM (updateKF s j f) i = findLM s i := rfl

theorem findLM_updateMP (s : SceneGraph) (j : ℕ) (f : MapPoint → MapPoint) (i : ℕ) :
    findLM (updateMP s j f) i = findLM s i := rfl

theorem map_strip_update (l : List KeyFrame) (j : ℕ) (f : KeyFrame → KeyFrame)
    (h : ∀ kf, stripKF (f kf) = stripKF kf) :
    ((l.map (fun kf => if kf.mnId == j then f kf else kf)).map stripKF) = l.map stripKF := by
  induction l with
  | nil => rfl
  | cons a t ih =>
    simp only [List.map_cons, ih]
    by_cases hc : (a.mnId == j) = true <;> simp [hc, h]

theorem stripScene_updateKF (s : SceneGraph) (j : ℕ) (f : KeyFrame → KeyFrame)
    (h : ∀ kf, stripKF (f kf) = stripKF kf) :
    stripScene (updateKF s j f) = stripScene s := by
  unfold stripScene updateKF
  simp only
  rw [map_strip_update s.keyFrames j f h]

theorem map_stripMP_update (l : List MapPoint) (j : ℕ) (f : MapPoint → MapPoint)
    (h : ∀ p, stripMP (f p) = stripMP p) :
    ((l.map (fun p => if p.mnId == j then f p else p)).map stripMP) = l.map stripMP := by
  induction l with
  | nil => rfl
  | cons a t ih =>
    simp only [List.map_cons, ih]
    by_cases hc : (a.mnId == j) = true <;> simp [hc, h]

theorem stripScene_updateMP (s : SceneGraph) (j : ℕ) (f : MapPoint → MapPoint)
    (h : ∀ p, stripMP (f p) = stripMP p) :
    stripScene (updateMP s j f) = stripScene s := by
  unfold stripScene updateMP
  simp only
  rw [map_stripMP_update s.mapPoints j f h]

theorem strip_selectLocalKFs (s : SceneGraph) (p : ℕ) :
    stripScene (selectLocalKFs s p).scene = stripScene s := by
  unfold selectLocalKFs
  simp only
  rw [foldl_pres (fun (o : SelOut) => stripScene o.scene)]
  · exact stripScene_updateKF s p _ (fun kf => rfl)
  · intro a x _
    dsimp only
    have hu : stripScene (updateKF a.scene x fun kf => { kf with mnBALocalForKF := p })
        = stripScene a.scene := stripScene_updateKF _ _ _ (fun kf => rfl)
    cases h : findKF (updateKF a.scene x fun kf => { kf with mnBALocalForKF := p }) x with
    | none => simpa [h] using hu
    | some kf =>
      cases hb : kf.isBad <;> simp [h, hb, hu]

theorem strip_selectLocalMPs (s : SceneGraph) (p : ℕ) (l : List ℕ) :
    stripScene (selectLocalMPs s p l).scene = stripScene s := by
  unfold selectLocalMPs
  rw [foldl_pres (fun (o : SelOut) => stripScene o.scene)]
  intro a x _
  dsimp only
  rw [foldl_pres (fun (o : SelOut) => stripScene o.scene)]
  intro a2 m _
  dsimp only
  cases m with
  | none => rfl
  | some pid =>
    cases h : findMP a2.scene pid with
    | none => simp [h]
    | some q =>
      cases hb : q.isBad
      · by_cases hs : (q.mnBALocalForKF == p) = true
        · simp [h, hb, hs]
        · simp only [h, hb, hs]
          exact stripScene_updateMP _ _ _ (fun q => rfl)
      · simp [h, hb]

theorem strip_selectFixedCams (s : SceneGraph) (p : ℕ) (l : List ℕ) :
    stripScene (selectFixedCams s p l).scene = stripScene s := by
  unfold selectFixedCams
  rw [foldl_pres (fun (o : SelOut) => stripScene o.scene)]
  intro a x _
  dsimp only
  rw [foldl_pres (fun (o : SelOut) => stripScene o.scene)]
  intro a2 ob _
  dsimp only
  cases h : findKF a2.scene ob.1 with
  | none => simp [h]
  | some kf =>
    have hu : stripScene (updateKF a2.scene ob.1 fun k => { k with mnBAFixedForKF := p })
        = stripScene a2.scene := stripScene_updateKF _ _ _ (fun kf => rfl)
    by_cases hc : kf.mnBALocalForKF ≠ p ∧ kf.mnBAFixedForKF ≠ p
    · cases hb : kf.isBad <;> simp [h, hc, hb, hu]
    · simp [h, hc]

theorem strip_localKFStep (env : Env) (acc : KFVertOut) (kfId : ℕ) :
    stripScene (localKFStep env acc kfId).scene = stripScene acc.scene := by
  unfold localKFStep
  cases h : findKF acc.scene kfId with
  | none => simp [h]
  | some kf =>
    simp only [h]
    rw [foldl_pres (fun (o : SelOut) => stripScene o.scene)]
    intro a lid _
    dsimp only
    cases hl : findLM a.scene lid with
    | none => rfl
    | some lm =>
      simp only [hl]
      exact stripScene_updateKF _ _ _ (fun k => rfl)

theorem strip_addLocalKFVertices (env : Env) (s : SceneGraph) (l : List ℕ) :
    stripScene (addLocalKFVertices env s l).scene = stripScene s := by
  unfold addLocalKFVertices
  rw [foldl_pres (fun (o : KFVertOut) => stripScene o.scene)]
  intro a x _
  exact strip_localKFStep env a x

/-- C3, counterexample: with the stop flag raised before the first optimize
call the procedure still mutates the scene graph — the trigger KeyFrame's
`mnBALocalForKF` stamp (line 47) changes from 0 to 1, so the scene is not
bit-identical, contradicting the claim. -/
theorem stop_before_start_counterexample :
    (LocalBundleAdjustment idEnv sceneB 1 (some (true, true))).scene ≠ sceneB ∧
    stampOf (LocalBundleAdjustment idEnv sceneB 1 (some (true, true))).scene 1 = some 1 ∧
    stampOf sceneB 1 = some 0 := by
  refine ⟨by decide, by decide, by decide⟩

/-- C3, amended: if the stop signal is set at the first check, the procedure
returns without any optimize call and without touching poses, point positions,
cuboids, match tables or observation sets; only the BA stamps and the
per-KeyFrame landmark-measurement caches may change (`stripScene` equality). -/
theorem stop_before_start_amended (env : Env) (s : SceneGraph) (pKFid : ℕ) (b : Bool) :
    (LocalBundleAdjustment env s pKFid (some (true, b))).trace = [] ∧
    (LocalBundleAdjustment env s pKFid (some (true, b))).stoppedEarly = true ∧
    stripScene (LocalBundleAdjustment env s pKFid (some (true, b))).scene = stripScene s := by
  refine ⟨rfl, rfl, ?_⟩
  show stripScene (addLocalKFVertices env _ _).scene = stripScene s
  rw [strip_addLocalKFVertices, strip_selectFixedCams, strip_selectLocalMPs,
    strip_selectLocalKFs]

/-- C1 (the claim is right, the code is wrong): the vertex id used at point
result recovery (line 368, `pointRecoveryId`) never equals the id the point
vertex was created with (line 167, `pointVertexId`) — they always differ by
`maxLandmarkId + 1`, landmarks or not. On the concrete scene `sceneA` the
solver moves the point vertex estimate from 7 to 91, yet the committed world
position stays 7 because no vertex lives at the recovery id. -/
theorem point_recovery_id_mismatch :
    (∀ maxKFId maxLandmarkId mnId : ℕ,
        pointRecoveryId maxKFId mnId ≠ pointVertexId maxKFId maxLandmarkId mnId) ∧
    (LocalBundleAdjustment bumpEnv sceneA 3 none).scene.mapPoints.map
      (fun p => p.worldPos) = [7] ∧
    findVertex (LocalBundleAdjustment bumpEnv sceneA 3 none).finalEstimates
      (pointVertexId 3 0 0) = some ⟨5, .point 91, false, true⟩ ∧
    findVertex (LocalBundleAdjustment bumpEnv sceneA 3 none).finalEstimates
      (pointRecoveryId 3 0) = none := by
  refine ⟨?_, by decide, by decide, by decide⟩
  intro a b c
  unfold pointRecoveryId pointVertexId
  omega

/-- C5: both the outlier-marking pass and the final classification use the
predicates `monoOutlier` and `stereoOutlier`; a residual exactly at the
threshold with positive depth is an inlier, anything strictly above is an
outlier, and the full characterization is `chi2 > threshold or depth not
positive` — the boundary test is a deterministic strict greater-than. -/
theorem outlier_threshold_strict :
    monoOutlier (mkRat 5991 1000) true = false ∧
    stereoOutlier (mkRat 7815 1000) true = false ∧
    (∀ c : ℚ, c > mkRat 5991 1000 → monoOutlier c true = true) ∧
    (∀ c : ℚ, c > mkRat 7815 1000 → stereoOutlier c true = true) ∧
    (∀ (c : ℚ) (d : Bool), monoOutlier c d = true ↔ (c > mkRat 5991 1000 ∨ d = false)) ∧
    (∀ (c : ℚ) (d : Bool), stereoOutlier c d = true ↔ (c > mkRat 7815 1000 ∨ d = false)) := by
  refine ⟨by decide, by decide, ?_, ?_, ?_, ?_⟩
  · intro c hc; simp [monoOutlier, hc]
  · intro c hc; simp [stereoOutlier, hc]
  · intro c d; cases d <;> simp [monoOutlier]
  · intro c d; cases d <;> simp [stereoOutlier]

/-- Witness for `outlier_threshold_strict` at the spec's own boundary probes
5.991 and 5.9911 (and the stereo analogue). -/
theorem outlier_threshold_strict_witness :
    monoOutlier (mkRat 5991 1000) true = false ∧ monoOutlier (mkRat 59911 10000) true = true ∧
    stereoOutlier (mkRat 7815 1000) true = false ∧
    stereoOutlier (mkRat 78151 10000) true = true :=
  ⟨outlier_threshold_strict.1,
   outlier_threshold_strict.2.2.1 (mkRat 59911 10000) (by decide),
   outlier_threshold_strict.2.1,
   outlier_threshold_strict.2.2.2.1 (mkRat 78151 10000) (by decide)⟩

/-- C4, counterexample: on a degenerate window (trigger KeyFrame 1 of `sceneB`
has no covisible neighbours and observes no points) the procedure does not
short-circuit: both solver invocations still happen (iteration budgets 5 and
10 appear in the trace), contradicting "no optimize call is made". -/
theorem degenerate_window_counterexample :
    (LocalBundleAdjustment idEnv sceneB 1 none).trace = [5, 10] ∧
    (LocalBundleAdjustment idEnv sceneB 1 none).trace ≠ [] := by
  refine ⟨by decide, by decide⟩

/-- C4, amended: on a degenerate window the solver is still invoked — with a
null stop flag the 5- and 10-iteration optimize calls both run on a graph with
no reprojection edges, no error is surfaced (the procedure is total) and no
observation links are queued for removal. -/
theorem degenerate_window_amended (env : Env) (s : SceneGraph) (pKFid : ℕ) (kf : KeyFrame)
    (hkf : findKF s pKFid = some kf) (hcov : kf.covisible = [])
    (hmt : kf.mapPointMatches = []) :
    (LocalBundleAdjustment env s pKFid none).trace = [5, 10] ∧
    (LocalBundleAdjustment env s pKFid none).graph.monoEdges = [] ∧
    (LocalBundleAdjustment env s pKFid none).graph.stereoEdges = [] ∧
    (LocalBundleAdjustment env s pKFid none).vToErase = [] := by
  have hid : kf.mnId = pKFid := findKF_mnId hkf
  have hbeq : (kf.mnId == pKFid) = true := by simp [hid]
  have h1 : findKF (updateKF s pKFid (fun kf => { kf with mnBALocalForKF := pKFid })) pKFid
      = some { kf with mnBALocalForKF := pKFid } := by
    rw [findKF_updateKF s pKFid (fun kf => { kf with mnBALocalForKF := pKFid })
      (fun _ => rfl) pKFid, hkf]
    simp only [Option.map_some', hbeq, ↓reduceIte]
  have hsel : selectLocalKFs s pKFid
      = ⟨[pKFid], updateKF s pKFid (fun kf => { kf with mnBALocalForKF := pKFid })⟩ := by
    unfold selectLocalKFs
    simp only [h1, hcov, List.foldl_nil]
  have hmp : selectLocalMPs
        (updateKF s pKFid (fun kf => { kf with mnBALocalForKF := pKFid })) pKFid [pKFid]
      = ⟨[], updateKF s pKFid (fun kf => { kf with mnBALocalForKF := pKFid })⟩ := by
    unfold selectLocalMPs
    simp only [List.foldl_cons, List.foldl_nil, h1, hmt]
  unfold LocalBundleAdjustment
  rw [hsel]
  unfold lbaStage1
  dsimp only
  rw [hmp]
  unfold lbaStage2 lbaStage3
  dsimp only
  generalize addLocalKFVertices env
    (updateKF s pKFid fun kf => { kf with mnBALocalForKF := pKFid }) [pKFid] = kfv
  unfold lbaStage4
  simp only [buildPointEdges, List.foldl_nil, stopAtFirstCheck, stopAtSecondCheck,
    Bool.not_false, Bool.false_eq_true, ↓reduceIte, markMonoEdges, markStereoEdges,
    classifyMono, classifyStereo, List.append_nil]
  refine ⟨?_, ?_, ?_, ?_⟩ <;> trivial

/-- Witness for `degenerate_window_amended` on the concrete degenerate scene
`sceneB` (KeyFrame 1, no neighbours, no points). -/
theorem degenerate_window_amended_witness :
    (LocalBundleAdjustment idEnv sceneB 1 none).trace = [5, 10] ∧
    (LocalBundleAdjustment idEnv sceneB 1 none).graph.monoEdges = [] ∧
    (LocalBundleAdjustment idEnv sceneB 1 none).graph.stereoEdges = [] ∧
    (LocalBundleAdjustment idEnv sceneB 1 none).vToErase = [] :=
  degenerate_window_amended idEnv sceneB 1 (mkKF 1) (by decide) rfl rfl

/-- C9: in the outlier-marking pass, an edge whose MapPoint is not bad loses
its Huber kernel unconditionally (line 284 sits outside the chi-square test)
and is demoted to level 1 exactly when the outlier test fires; an edge whose
MapPoint is bad is returned untouched — it keeps its kernel and its level.
Stated for the mono pass (lines 273-285) and the stereo pass (lines 287-299). -/
theorem marking_pass_kernel_and_level (env : Env) (s : SceneGraph) (est : List Vertex)
    (i : ℕ) (e : MonoEdge) (e2 : StereoEdge) :
    (∀ p, findMP s e.mpId = some p → p.isBad = false →
        (markMonoEdge env s est i e).robust = false ∧
        (markMonoEdge env s est i e).level =
          (if monoOutlier (env.chi2Mono est i) (env.depthPosMono est i) then 1 else e.level)) ∧
    (∀ p, findMP s e.mpId = some p → p.isBad = true → markMonoEdge env s est i e = e) ∧
    (∀ p, findMP s e2.mpId = some p → p.isBad = false →
        (markStereoEdge env s est i e2).robust = false ∧
        (markStereoEdge env s est i e2).level =
          (if stereoOutlier (env.chi2Stereo est i) (env.depthPosStereo est i) then 1
           else e2.level)) ∧
    (∀ p, findMP s e2.mpId = some p → p.isBad = true → markStereoEdge env s est i e2 = e2) := by
  refine ⟨?_, ?_, ?_, ?_⟩
  · intro p hp hb
    simp only [markMonoEdge, hp, hb, Bool.false_eq_true, ↓reduceIte]
    exact ⟨trivial, by split <;> rfl⟩
  · intro p hp hb
    simp only [markMonoEdge, hp, hb, ↓reduceIte]
  · intro p hp hb
    simp only [markStereoEdge, hp, hb, Bool.false_eq_true, ↓reduceIte]
    exact ⟨trivial, by split <;> rfl⟩
  · intro p hp hb
    simp only [markStereoEdge, hp, hb, ↓reduceIte]

/-- Witness for `marking_pass_kernel_and_level`: on `sceneA` (MapPoint 0 is
not bad) a concrete inlier mono edge loses its kernel but keeps level 0. -/
theorem marking_pass_kernel_and_level_witness :
    (markMonoEdge idEnv sceneA [] 0 monoEdgeW).robust = false ∧
    (markMonoEdge idEnv sceneA [] 0 monoEdgeW).level = 0 := by
  have h := (marking_pass_kernel_and_level idEnv sceneA [] 0 monoEdgeW stereoEdgeW).1
    { mkMP 0 with worldPos := 7, observations := [(3, 0)] } (by decide) (by decide)
  refine ⟨h.1, ?_⟩
  rw [h.2]
  decide

theorem markMonoEdge_kfId (env : Env) (s : SceneGraph) (est : List Vertex) (i : ℕ)
    (e : MonoEdge) : (markMonoEdge env s est i e).kfId = e.kfId := by
  unfold markMonoEdge
  cases h : findMP s e.mpId with
  | none => rfl
  | some p =>
    cases hb : p.isBad
    · simp only [hb, Bool.false_eq_true, ↓reduceIte]
      split <;> rfl
    · simp only [hb, ↓reduceIte]

theorem monoCount_markMonoEdges (env : Env) (s : SceneGraph) (est : List Vertex) (k : ℕ) :
    ∀ (l : List MonoEdge) (i : ℕ),
      ((markMonoEdges env s est i l).filter (fun e => e.kfId == k)).length =
        (l.filter (fun e => e.kfId == k)).length := by
  intro l
  induction l with
  | nil => intro i; rfl
  | cons e t ih =>
    intro i
    simp only [markMonoEdges, List.filter_cons, markMonoEdge_kfId]
    by_cases hc : (e.kfId == k) = true <;> simp [hc, ih]

theorem monoEdges_cuboidFold (s : SceneGraph) (M : ℕ) (kf : KeyFrame) :
    ∀ (l : List ℕ) (g : OptGraph),
      (l.foldl (cuboidEdgeStep s M kf) g).monoEdges = g.monoEdges := by
  intro l g
  rw [foldl_pres OptGraph.monoEdges]
  intro a x _
  unfold cuboidEdgeStep
  cases h : findLM s x <;> rfl

theorem cuboidCount_cuboidFold (s : SceneGraph) (M : ℕ) (kf : KeyFrame) (k : ℕ) :
    ∀ (l : List ℕ) (g : OptGraph),
      cuboidCountFor (l.foldl (cuboidEdgeStep s M kf) g) k =
        cuboidCountFor g k +
          (if kf.mnId == k then (l.filter (fun lid => (findLM s lid).isSome)).length
           else 0) := by
  intro l
  induction l with
  | nil => intro g; simp
  | cons lid t ih =>
    intro g
    rw [List.foldl_cons, ih]
    cases h : findLM s lid with
    | none =>
      simp only [cuboidEdgeStep, h, List.filter_cons, Option.isSome_none, Bool.false_eq_true,
        ↓reduceIte]
    | some lm =>
      simp only [cuboidEdgeStep, h, List.filter_cons, Option.isSome_some, ↓reduceIte]
      simp only [cuboidCountFor, List.filter_append, List.length_append, List.filter_cons,
        List.filter_nil, List.length_cons]
      by_cases hc : (kf.mnId == k) = true <;> simp [hc] <;> omega

theorem counts_obsStep (s : SceneGraph) (M vid mp k : ℕ) (kf0 : KeyFrame)
    (hk : findKF s k = some kf0) (g : OptGraph) (ob : ℕ × ℕ)
    (hP : cuboidCountFor g k = monoCountFor g k * landmarksFound s kf0) :
    cuboidCountFor (obsStep s M vid mp g ob) k =
      monoCountFor (obsStep s M vid mp g ob) k * landmarksFound s kf0 := by
  unfold obsStep
  cases h : findKF s ob.1 with
  | none => exact hP
  | some kf =>
    cases hb : kf.isBad
    · simp only [hb, Bool.false_eq_true, ↓reduceIte]
      by_cases hmono : kf.mvuRight.getD ob.2 0 < 0
      · simp only [hmono, if_true]
        unfold addCuboidEdges
        rw [cuboidCount_cuboidFold]
        have hmon : monoCountFor
            (kf.landmarkIds.foldl (cuboidEdgeStep s M kf)
              { g with monoEdges := g.monoEdges ++
                  [{ pointVid := vid, kfVid := kf.mnId, obsX := (kf.mvKeysUn.getD ob.2 ⟨0, 0, 0⟩).px,
                     obsY := (kf.mvKeysUn.getD ob.2 ⟨0, 0, 0⟩).py,
                     invSigma2 := kf.mvInvLevelSigma2.getD (kf.mvKeysUn.getD ob.2 ⟨0, 0, 0⟩).octave 0,
                     robust := true, level := 0, kfId := kf.mnId, mpId := mp,
                     fx := kf.fx, fy := kf.fy, cx := kf.cx, cy := kf.cy }] }) k =
            monoCountFor g k + (if kf.mnId == k then 1 else 0) := by
          unfold monoCountFor
          rw [monoEdges_cuboidFold]
          simp only [List.filter_append, List.length_append, List.filter_cons, List.filter_nil]
          by_cases hc : (kf.mnId == k) = true <;> simp [hc]
        rw [hmon]
        have hcub : cuboidCountFor
            { g with monoEdges := g.monoEdges ++
                [{ pointVid := vid, kfVid := kf.mnId, obsX := (kf.mvKeysUn.getD ob.2 ⟨0, 0, 0⟩).px,
                   obsY := (kf.mvKeysUn.getD ob.2 ⟨0, 0, 0⟩).py,
                   invSigma2 := kf.mvInvLevelSigma2.getD (kf.mvKeysUn.getD ob.2 ⟨0, 0, 0⟩).octave 0,
                   robust := true, level := 0, kfId := kf.mnId, mpId := mp,
                   fx := kf.fx, fy := kf.fy, cx := kf.cx, cy := kf.cy }] } k =
            cuboidCountFor g k := rfl
        rw [hcub]
        by_cases hkk : (kf.mnId == k) = true
        · have hkeq : kf.mnId = k := by simpa using hkk
          have hob : ob.1 = k := by rw [← findKF_mnId h, hkeq]
          rw [hob] at h
          have hkf0 : kf = kf0 := by rw [h] at hk; exact Option.some.inj hk
          simp only [hkk, if_true]
          rw [hP, hkf0, Nat.succ_mul]
          have : (kf0.landmarkIds.filter (fun lid => (findLM s lid).isSome)).length =
              landmarksFound s kf0 := rfl
          omega
        · simp only [hkk, if_false]
          simpa using hP
      · simp only [hmono, if_false]
        have h1 : cuboidCountFor
            { g with stereoEdges := g.stereoEdges ++
                [{ pointVid := vid, kfVid := kf.mnId, obsX := (kf.mvKeysUn.getD ob.2 ⟨0, 0, 0⟩).px,
                   obsY := (kf.mvKeysUn.getD ob.2 ⟨0, 0, 0⟩).py,
                   obsUR := kf.mvuRight.getD ob.2 0,
                   invSigma2 := kf.mvInvLevelSigma2.getD (kf.mvKeysUn.getD ob.2 ⟨0, 0, 0⟩).octave 0,
                   robust := true, level := 0, kfId := kf.mnId, mpId := mp,
                   fx := kf.fx, fy := kf.fy, cx := kf.cx, cy := kf.cy, bf := kf.mbf }] } k =
            cuboidCountFor g k := rfl
        rw [h1]
        exact hP
    · simp only [hb, ↓reduceIte]
      exact hP

theorem counts_pointStep (s : SceneGraph) (M L k : ℕ) (kf0 : KeyFrame)
    (hk : findKF s k = some kf0) (g : OptGraph) (pid : ℕ)
    (hP : cuboidCountFor g k = monoCountFor g k * landmarksFound s kf0) :
    cuboidCountFor (pointStep s M L g pid) k =
      monoCountFor (pointStep s M L g pid) k * landmarksFound s kf0 := by
  unfold pointStep
  cases h : findMP s pid with
  | none => exact hP
  | some p =>
    simp only
    refine foldl_inv
      (fun g => cuboidCountFor g k = monoCountFor g k * landmarksFound s kf0) _ _ _
      (fun a ob _ hPa => counts_obsStep s M _ _ k kf0 hk a ob hPa) ?_
    exact hP

theorem counts_buildPointEdges (s : SceneGraph) (mps : List ℕ) (M L : ℕ)
    (vs : List Vertex) (k : ℕ) (kf0 : KeyFrame) (hk : findKF s k = some kf0) :
    cuboidCountFor (buildPointEdges s mps M L vs) k =
      monoCountFor (buildPointEdges s mps M L vs) k * landmarksFound s kf0 := by
  unfold buildPointEdges
  refine foldl_inv
    (fun g => cuboidCountFor g k = monoCountFor g k * landmarksFound s kf0) _ _ _
    (fun a pid _ hPa => counts_pointStep s M L k kf0 hk a pid hPa) ?_
  simp [cuboidCountFor, monoCountFor]

/-- C10: camera-object edges are created once per monocular observation, not
once per (KeyFrame, Landmark) pair — for every KeyFrame `k` the built graph
holds exactly (number of mono edges from `k`) * (number of landmarks of `k`)
camera-object edges, duplicates included; in particular a KeyFrame whose
observations are all stereo gets none, landmarks or not. Holds for the final
graph of the procedure under any stop-flag value (the outlier passes do not
create or drop edges). -/
theorem cuboid_edges_per_mono_observation (env : Env) (s0 : SceneGraph) (pKFid k : ℕ)
    (stopFlag : Option (Bool × Bool)) (kf0 : KeyFrame)
    (hk : findKF (LocalBundleAdjustment env s0 pKFid stopFlag).sceneAtBuild k = some kf0) :
    cuboidCountFor (LocalBundleAdjustment env s0 pKFid stopFlag).graph k =
      monoCountFor (LocalBundleAdjustment env s0 pKFid stopFlag).graph k *
        landmarksFound (LocalBundleAdjustment env s0 pKFid stopFlag).sceneAtBuild kf0 := by
  unfold LocalBundleAdjustment lbaStage1 lbaStage2 lbaStage3 at hk ⊢
  generalize (addLocalKFVertices env _ _) = kfv at hk ⊢
  unfold lbaStage4 at hk ⊢
  by_cases hstop : stopAtFirstCheck stopFlag = true
  · simp only [hstop, if_true] at hk ⊢
    exact counts_buildPointEdges _ _ _ _ _ _ _ hk
  · simp only [hstop, Bool.false_eq_true, if_false, ↓reduceIte] at hk ⊢
    by_cases hb2 : stopAtSecondCheck stopFlag = true
    · simp only [hb2, Bool.not_true, Bool.false_eq_true, if_false, ↓reduceIte] at hk ⊢
      exact counts_buildPointEdges _ _ _ _ _ _ _ hk
    · simp only [hb2, Bool.not_false, if_true, ↓reduceIte] at hk ⊢
      simp only [cuboidCountFor, monoCountFor]
      rw [monoCount_markMonoEdges]
      exact counts_buildPointEdges _ _ _ _ _ _ _ hk

/-- Witness for `cuboid_edges_per_mono_observation` on `sceneC`, KeyFrame 1:
one mono edge times one landmark gives one camera-object edge. -/
theorem cuboid_edges_per_mono_observation_witness :
    findKF (LocalBundleAdjustment idEnv sceneC 1 none).sceneAtBuild 1 = some kfW ∧
    cuboidCountFor (LocalBundleAdjustment idEnv sceneC 1 none).graph 1 =
      monoCountFor (LocalBundleAdjustment idEnv sceneC 1 none).graph 1 *
        landmarksFound (LocalBundleAdjustment idEnv sceneC 1 none).sceneAtBuild kfW :=
  ⟨by decide, cuboid_edges_per_mono_observation idEnv sceneC 1 1 none kfW (by decide)⟩

/-- C6, counterexample: in `sceneC`, KeyFrame 2 is a fixed camera observing
Local MapPoint 10 monocularly, and Local Landmark 7 is associated with it. Its
camera-object edge carries the stale pre-call cached measurement 999, while
the relative cuboid pose window selection would compute for that pair is
`transformTo 5 200 = 205`; window selection (line 102) only refreshes the
caches of Local KeyFrames, so the claim's "measurement equal to the relative
cuboid pose cached for that (KeyFrame, Landmark) pair during window selection"
is false for fixed-camera observers. -/
theorem cuboid_measurement_counterexample :
    ((LocalBundleAdjustment idEnv sceneC 1 none).graph.cuboidEdges.map
        (fun e => (e.kfVid, e.cuboidVid, e.meas))) = [(1, 10, 105), (2, 10, 999)] ∧
    (LocalBundleAdjustment idEnv sceneC 1 none).fixedCams = [2] ∧
    idEnv.transformTo 5 200 = 205 ∧
    (999 : ℤ) ≠ 205 := by
  refine ⟨by decide, by decide, by decide, by decide⟩

theorem cuboidEdges_cuboidFold_spec (s : SceneGraph) (M : ℕ) (kf : KeyFrame)
    (hkf : findKF s kf.mnId = some kf) :
    ∀ (l : List ℕ), (∀ x ∈ l, x ∈ kf.landmarkIds) → ∀ (g : OptGraph),
      (∀ e ∈ g.cuboidEdges, CuboidEdgeSpec s M e) →
      ∀ e ∈ (l.foldl (cuboidEdgeStep s M kf) g).cuboidEdges, CuboidEdgeSpec s M e := by
  intro l
  induction l with
  | nil => intro _ g hg; exact hg
  | cons lid t ih =>
    intro hsub g hg
    rw [List.foldl_cons]
    refine ih (fun x hx => hsub x (List.mem_cons_of_mem _ hx)) _ ?_
    intro e he
    unfold cuboidEdgeStep at he
    cases h : findLM s lid with
    | none => rw [h] at he; exact hg e he
    | some lm =>
      rw [h] at he
      simp only at he
      rcases List.mem_append.mp he with h1 | h2
      · exact hg e h1
      · rw [List.mem_singleton.mp h2]
        exact ⟨kf, lid, lm, hkf, hsub lid (List.mem_cons_self _ _), h, rfl, rfl, rfl⟩

theorem cuboidEdges_obsStep_spec (s : SceneGraph) (M vid mp : ℕ) (g : OptGraph)
    (ob : ℕ × ℕ) (hg : ∀ e ∈ g.cuboidEdges, CuboidEdgeSpec s M e) :
    ∀ e ∈ (obsStep s M vid mp g ob).cuboidEdges, CuboidEdgeSpec s M e := by
  unfold obsStep
  cases h : findKF s ob.1 with
  | none => exact hg
  | some kf =>
    cases hb : kf.isBad
    · simp only [hb, Bool.false_eq_true, ↓reduceIte]
      by_cases hmono : kf.mvuRight.getD ob.2 0 < 0
      · simp only [hmono, if_true]
        unfold addCuboidEdges
        have hkf : findKF s kf.mnId = some kf := by rw [findKF_mnId h]; exact h
        exact cuboidEdges_cuboidFold_spec s M kf hkf kf.landmarkIds (fun x hx => hx) _ hg
      · simp only [hmono, if_false]
        exact hg
    · simp only [hb, ↓reduceIte]
      exact hg

theorem cuboidEdges_build_spec (s : SceneGraph) (mps : List ℕ) (M L : ℕ)
    (vs : List Vertex) :
    ∀ e ∈ (buildPointEdges s mps M L vs).cuboidEdges, CuboidEdgeSpec s M e := by
  unfold buildPointEdges
  refine foldl_inv (fun (g : OptGraph) => ∀ e ∈ g.cuboidEdges, CuboidEdgeSpec s M e) _ _ _ ?_ ?_
  · intro a pid _ hPa
    unfold pointStep
    cases h : findMP s pid with
    | none => exact hPa
    | some p =>
      simp only
      refine foldl_inv (fun (g : OptGraph) => ∀ e ∈ g.cuboidEdges, CuboidEdgeSpec s M e) _ _ _
        (fun a2 ob _ hPa2 => cuboidEdges_obsStep_spec s M _ _ a2 ob hPa2) ?_
      exact hPa
  · intro e he
    simp at he

/-- C6, amended: for every monocular observation from a non-bad observer, one
camera-object edge per associated landmark is created between that KeyFrame's
pose-vertex id and the landmark's cuboid-vertex id `maxKFId + 1 + lid`, with
information the 9-entry diagonal `(2 * quality)^2`, and with measurement equal
to the entry currently stored in that KeyFrame's landmark-measurement cache —
which window selection refreshed only for Local KeyFrames, so a fixed-camera
observer contributes its stale pre-call cached value. Formally: every
camera-object edge of the final graph satisfies `CuboidEdgeSpec` relative to
the graph-build scene, under any stop-flag value. -/
theorem cuboid_edge_measurement_amended (env : Env) (s0 : SceneGraph) (pKFid : ℕ)
    (stopFlag : Option (Bool × Bool)) :
    ∀ e ∈ (LocalBundleAdjustment env s0 pKFid stopFlag).graph.cuboidEdges,
      CuboidEdgeSpec (LocalBundleAdjustment env s0 pKFid stopFlag).sceneAtBuild
        (LocalBundleAdjustment env s0 pKFid stopFlag).maxKFId e := by
  unfold LocalBundleAdjustment lbaStage1 lbaStage2 lbaStage3
  generalize (addLocalKFVertices env _ _) = kfv
  unfold lbaStage4
  by_cases hstop : stopAtFirstCheck stopFlag = true
  · simp only [hstop, if_true]
    exact cuboidEdges_build_spec _ _ _ _ _
  · simp only [hstop, Bool.false_eq_true, if_false, ↓reduceIte]
    by_cases hb2 : stopAtSecondCheck stopFlag = true
    · simp only [hb2, Bool.not_true, Bool.false_eq_true, if_false, ↓reduceIte]
      exact cuboidEdges_build_spec _ _ _ _ _
    · simp only [hb2, Bool.not_false, if_true, ↓reduceIte]
      exact cuboidEdges_build_spec _ _ _ _ _

/-- Witness for `cuboid_edge_measurement_amended`: the fixed camera's stale
edge of `sceneC` satisfies the cache-content characterization. -/
theorem cuboid_edge_measurement_amended_witness :
    CuboidEdgeSpec (LocalBundleAdjustment idEnv sceneC 1 none).sceneAtBuild
      (LocalBundleAdjustment idEnv sceneC 1 none).maxKFId
      { kfVid := 2, cuboidVid := 10, meas := 999,
        infoDiag := cuboidInfoDiag (mkRat 1 2) } := by
  refine cuboid_edge_measurement_amended idEnv sceneC 1 none _ ?_
  have hlist : (LocalBundleAdjustment idEnv sceneC 1 none).graph.cuboidEdges =
      [{ kfVid := 1, cuboidVid := 10, meas := 105, infoDiag := cuboidInfoDiag (mkRat 1 2) },
       { kfVid := 2, cuboidVid := 10, meas := 999,
         infoDiag := cuboidInfoDiag (mkRat 1 2) }] := rfl
  rw [hlist]
  exact List.Mem.tail _ (List.Mem.head _)

theorem stereoEdges_cuboidFold (s : SceneGraph) (M : ℕ) (kf : KeyFrame) :
    ∀ (l : List ℕ) (g : OptGraph),
      (l.foldl (cuboidEdgeStep s M kf) g).stereoEdges = g.stereoEdges := by
  intro l g
  rw [foldl_pres OptGraph.stereoEdges]
  intro a x _
  unfold cuboidEdgeStep
  cases h : findLM s x <;> rfl

theorem buildEdges_unmarked (s : SceneGraph) (mps : List ℕ) (M L : ℕ) (vs : List Vertex) :
    (∀ e ∈ (buildPointEdges s mps M L vs).monoEdges, e.robust = true ∧ e.level = 0) ∧
    (∀ e ∈ (buildPointEdges s mps M L vs).stereoEdges, e.robust = true ∧ e.level = 0) := by
  unfold buildPointEdges
  refine foldl_inv (fun (g : OptGraph) => (∀ e ∈ g.monoEdges, e.robust = true ∧ e.level = 0) ∧
      (∀ e ∈ g.stereoEdges, e.robust = true ∧ e.level = 0)) _ _ _ ?_ ?_
  · intro a pid _ hPa
    unfold pointStep
    cases h : findMP s pid with
    | none => exact hPa
    | some p =>
      simp only
      refine foldl_inv (fun (g : OptGraph) => (∀ e ∈ g.monoEdges, e.robust = true ∧ e.level = 0) ∧
          (∀ e ∈ g.stereoEdges, e.robust = true ∧ e.level = 0)) _ _ _ ?_ ?_
      · intro a2 ob _ hPa2
        unfold obsStep
        cases h2 : findKF s ob.1 with
        | none => exact hPa2
        | some kf =>
          cases hb : kf.isBad
          · simp only [hb, Bool.false_eq_true, ↓reduceIte]
            by_cases hm : kf.mvuRight.getD ob.2 0 < 0
            · simp only [hm, if_true]
              unfold addCuboidEdges
              constructor
              · rw [monoEdges_cuboidFold]
                intro e he
                simp only [List.mem_append, List.mem_singleton] at he
                rcases he with h1 | h2
                · exact hPa2.1 e h1
                · rw [h2]; exact ⟨rfl, rfl⟩
              · rw [stereoEdges_cuboidFold]
                exact hPa2.2
            · simp only [hm, if_false]
              refine ⟨hPa2.1, ?_⟩
              intro e he
              simp only [List.mem_append, List.mem_singleton] at he
              rcases he with h1 | h2
              · exact hPa2.2 e h1
              · rw [h2]; exact ⟨rfl, rfl⟩
          · simp only [hb, ↓reduceIte]
            exact hPa2
      · exact hPa
  · constructor <;> intro e he <;> simp at he

/-- C7: when the stop signal is raised between the two optimize calls (first
read false, second read true), the outlier-demotion pass and the 10-iteration
refined optimize are skipped (trace is `[5]`, every edge keeps its Huber
kernel and level 0), the final outlier classification still runs on the
post-step-1 estimates, and the commit — link severance, then pose, landmark
and point write-back — still takes place. -/
theorem stop_after_first_optimize (env : Env) (s : SceneGraph) (pKFid : ℕ) :
    (LocalBundleAdjustment env s pKFid (some (false, true))).stoppedEarly = false ∧
    (LocalBundleAdjustment env s pKFid (some (false, true))).trace = [5] ∧
    (LocalBundleAdjustment env s pKFid (some (false, true))).finalEstimates =
      (LocalBundleAdjustment env s pKFid (some (false, true))).estimates1 ∧
    (∀ e ∈ (LocalBundleAdjustment env s pKFid (some (false, true))).graph.monoEdges,
        e.robust = true ∧ e.level = 0) ∧
    (∀ e ∈ (LocalBundleAdjustment env s pKFid (some (false, true))).graph.stereoEdges,
        e.robust = true ∧ e.level = 0) ∧
    (LocalBundleAdjustment env s pKFid (some (false, true))).vToErase =
      classifyMono env (LocalBundleAdjustment env s pKFid (some (false, true))).sceneAtBuild
        (LocalBundleAdjustment env s pKFid (some (false, true))).estimates1 0
        (LocalBundleAdjustment env s pKFid (some (false, true))).graph.monoEdges ++
      classifyStereo env (LocalBundleAdjustment env s pKFid (some (false, true))).sceneAtBuild
        (LocalBundleAdjustment env s pKFid (some (false, true))).estimates1 0
        (LocalBundleAdjustment env s pKFid (some (false, true))).graph.stereoEdges ∧
    (LocalBundleAdjustment env s pKFid (some (false, true))).scene =
      commitPoints
        (commitLandmarks
          (commitPoses
            (commitErase (LocalBundleAdjustment env s pKFid (some (false, true))).sceneAtBuild
              (LocalBundleAdjustment env s pKFid (some (false, true))).vToErase)
            (LocalBundleAdjustment env s pKFid (some (false, true))).finalEstimates
            (LocalBundleAdjustment env s pKFid (some (false, true))).localKFs)
          (LocalBundleAdjustment env s pKFid (some (false, true))).finalEstimates
          (LocalBundleAdjustment env s pKFid (some (false, true))).localLMs
          (LocalBundleAdjustment env s pKFid (some (false, true))).maxKFId)
        (LocalBundleAdjustment env s pKFid (some (false, true))).finalEstimates
        (LocalBundleAdjustment env s pKFid (some (false, true))).localMPs
        (LocalBundleAdjustment env s pKFid (some (false, true))).maxKFId := by
  refine ⟨rfl, rfl, rfl, ?_, ?_, rfl, rfl⟩
  · exact (buildEdges_unmarked _ _ _ _ _).1
  · exact (buildEdges_unmarked _ _ _ _ _).2

/-- Witness for `stop_after_first_optimize` on `sceneC`: the trace is `[5]`
and the first mono edge is present, unmarked. -/
theorem stop_after_first_optimize_witness :
    (LocalBundleAdjustment idEnv sceneC 1 (some (false, true))).trace = [5] ∧
    ({ pointVid := 21, kfVid := 1, obsX := 0, obsY := 0, invSigma2 := 1, robust := true,
       level := 0, kfId := 1, mpId := 10, fx := 1, fy := 1, cx := 0, cy := 0 } : MonoEdge) ∈
      (LocalBundleAdjustment idEnv sceneC 1 (some (false, true))).graph.monoEdges ∧
    (({ pointVid := 21, kfVid := 1, obsX := 0, obsY := 0, invSigma2 := 1, robust := true,
        level := 0, kfId := 1, mpId := 10, fx := 1, fy := 1, cx := 0,
        cy := 0 } : MonoEdge).robust = true ∧
     ({ pointVid := 21, kfVid := 1, obsX := 0, obsY := 0, invSigma2 := 1, robust := true,
        level := 0, kfId := 1, mpId := 10, fx := 1, fy := 1, cx := 0,
        cy := 0 } : MonoEdge).level = 0) := by
  refine ⟨(stop_after_first_optimize idEnv sceneC 1).2.1, by decide, ?_⟩
  exact (stop_after_first_optimize idEnv sceneC 1).2.2.2.1 _ (by decide)

theorem findKF_congr {s t : SceneGraph} (h : s.keyFrames = t.keyFrames) (i : ℕ) :
    findKF s i = findKF t i := by
  unfold findKF
  rw [h]

theorem stampOf_updateKF_pres (s : SceneGraph) (j : ℕ) (f : KeyFrame → KeyFrame)
    (hid : ∀ kf, (f kf).mnId = kf.mnId)
    (hst : ∀ kf, (f kf).mnBALocalForKF = kf.mnBALocalForKF) (i : ℕ) :
    stampOf (updateKF s j f) i = stampOf s i := by
  unfold stampOf
  rw [findKF_updateKF s j f hid i]
  cases h : findKF s i with
  | none => rfl
  | some kf =>
    simp only [Option.map_some']
    split <;> simp [hst]

theorem stampOf_updateKF_stamp (s : SceneGraph) (j p i : ℕ) :
    stampOf (updateKF s j (fun kf => { kf with mnBALocalForKF := p })) i =
      if i = j then (stampOf s i).map (fun _ => p) else stampOf s i := by
  unfold stampOf
  rw [findKF_updateKF s j (fun kf => { kf with mnBALocalForKF := p }) (fun _ => rfl) i]
  cases h : findKF s i with
  | none => simp
  | some kf =>
    have hm : kf.mnId = i := findKF_mnId h
    by_cases hij : i = j
    · simp [hij, hm]
    · simp [hij, hm]

theorem poseOf_updateKF_pres (s : SceneGraph) (j : ℕ) (f : KeyFrame → KeyFrame)
    (hid : ∀ kf, (f kf).mnId = kf.mnId)
    (hp : ∀ kf, (f kf).pose = kf.pose) (i : ℕ) :
    poseOf (updateKF s j f) i = poseOf s i := by
  unfold poseOf
  rw [findKF_updateKF s j f hid i]
  cases h : findKF s i with
  | none => rfl
  | some kf =>
    simp only [Option.map_some']
    split <;> simp [hp]

theorem keyFrames_selectLocalMPs (s : SceneGraph) (p : ℕ) (l : List ℕ) :
    (selectLocalMPs s p l).scene.keyFrames = s.keyFrames := by
  unfold selectLocalMPs
  rw [foldl_pres (fun (o : SelOut) => o.scene.keyFrames)]
  intro a x _
  dsimp only
  rw [foldl_pres (fun (o : SelOut) => o.scene.keyFrames)]
  intro a2 m _
  dsimp only
  cases m with
  | none => rfl
  | some pid =>
    cases h : findMP a2.scene pid with
    | none => simp [h]
    | some q =>
      cases hb : q.isBad
      · by_cases hs : (q.mnBALocalForKF == p) = true <;> simp [h, hb, hs, updateMP]
      · simp [h, hb]

theorem stampOf_selectFixedCams (s : SceneGraph) (p : ℕ) (l : List ℕ) (i : ℕ) :
    stampOf (selectFixedCams s p l).scene i = stampOf s i := by
  unfold selectFixedCams
  rw [foldl_pres (fun (o : SelOut) => stampOf o.scene i)]
  intro a x _
  dsimp only
  rw [foldl_pres (fun (o : SelOut) => stampOf o.scene i)]
  intro a2 ob _
  dsimp only
  cases h : findKF a2.scene ob.1 with
  | none => simp [h]
  | some kf =>
    have hpres := stampOf_updateKF_pres a2.scene ob.1
      (fun k => { k with mnBAFixedForKF := p }) (fun _ => rfl) (fun _ => rfl) i
    by_cases hc : kf.mnBALocalForKF ≠ p ∧ kf.mnBAFixedForKF ≠ p
    · cases hb : kf.isBad <;> simp [h, hc, hb, hpres]
    · simp [h, hc]

theorem stampOf_localKFStep (env : Env) (acc : KFVertOut) (kfId i : ℕ) :
    stampOf (localKFStep env acc kfId).scene i = stampOf acc.scene i := by
  unfold localKFStep
  cases h : findKF acc.scene kfId with
  | none => simp [h]
  | some kf =>
    simp only [h]
    rw [foldl_pres (fun (o : SelOut) => stampOf o.scene i)]
    intro a lid _
    dsimp only
    cases hl : findLM a.scene lid with
    | none => rfl
    | some lm =>
      simp only [hl]
      exact stampOf_updateKF_pres a.scene kfId
        (fun k =>
          { k with landmarkMeasurements :=
              mapSet k.landmarkMeasurements lid (env.transformTo lm.cuboid kf.camPoseTwc) })
        (fun _ => rfl) (fun _ => rfl) i

theorem stampOf_addLocalKFVertices (env : Env) (s : SceneGraph) (l : List ℕ) (i : ℕ) :
    stampOf (addLocalKFVertices env s l).scene i = stampOf s i := by
  unfold addLocalKFVertices
  rw [foldl_pres (fun (o : KFVertOut) => stampOf o.scene i)]
  intro a x _
  exact stampOf_localKFStep env a x i

theorem localKFs_stamped (s : SceneGraph) (p : ℕ) :
    ∀ id ∈ (selectLocalKFs s p).ids,
      stampOf (selectLocalKFs s p).scene id = some p ∨
      stampOf (selectLocalKFs s p).scene id = none := by
  unfold selectLocalKFs
  refine foldl_inv (fun (o : SelOut) => ∀ id ∈ o.ids,
      stampOf o.scene id = some p ∨ stampOf o.scene id = none) _ _ _ ?_ ?_
  · intro a x _ ha
    dsimp only
    have hstep : ∀ id, (stampOf a.scene id = some p ∨ stampOf a.scene id = none) →
        stampOf (updateKF a.scene x (fun kf => { kf with mnBALocalForKF := p })) id = some p ∨
        stampOf (updateKF a.scene x (fun kf => { kf with mnBALocalForKF := p })) id = none := by
      intro id hid
      rw [stampOf_updateKF_stamp]
      by_cases hij : id = x
      · rw [if_pos hij]
        cases hcase : stampOf a.scene id <;> simp
      · rw [if_neg hij]
        exact hid
    have hx : stampOf (updateKF a.scene x (fun kf => { kf with mnBALocalForKF := p })) x
        = some p ∨
        stampOf (updateKF a.scene x (fun kf => { kf with mnBALocalForKF := p })) x = none := by
      rw [stampOf_updateKF_stamp, if_pos rfl]
      cases hcase : stampOf a.scene x <;> simp
    cases hf : findKF (updateKF a.scene x (fun kf => { kf with mnBALocalForKF := p })) x with
    | none =>
      simp only [hf]
      intro id hid
      exact hstep id (ha id hid)
    | some kf =>
      simp only [hf]
      cases hb : kf.isBad
      · simp only [Bool.false_eq_true, ↓reduceIte]
        intro id hid
        rcases List.mem_append.mp hid with h1 | h2
        · exact hstep id (ha id h1)
        · rw [List.mem_singleton.mp h2]
          exact hx
      · simp only [↓reduceIte]
        intro id hid
        exact hstep id (ha id hid)
  · intro id hid
    rw [List.mem_singleton.mp hid, stampOf_updateKF_stamp, if_pos rfl]
    cases hcase : stampOf s p <;> simp

theorem fixedCams_stamp_ne (s : SceneGraph) (p : ℕ) (l : List ℕ) :
    ∀ id ∈ (selectFixedCams s p l).ids,
      ∃ v, stampOf (selectFixedCams s p l).scene id = some v ∧ v ≠ p := by
  unfold selectFixedCams
  refine foldl_inv (fun (o : SelOut) => ∀ id ∈ o.ids,
      ∃ v, stampOf o.scene id = some v ∧ v ≠ p) _ _ _ ?_ ?_
  · intro a x _ ha
    dsimp only
    refine foldl_inv (fun (o : SelOut) => ∀ id ∈ o.ids,
        ∃ v, stampOf o.scene id = some v ∧ v ≠ p) _ _ _ ?_ ha
    intro a2 ob _ ha2
    dsimp only
    cases h : findKF a2.scene ob.1 with
    | none =>
      simp only [h]
      exact ha2
    | some kf =>
      simp only [h]
      have hpres : ∀ id, stampOf
          (updateKF a2.scene ob.1 (fun k => { k with mnBAFixedForKF := p })) id =
          stampOf a2.scene id :=
        fun id => stampOf_updateKF_pres a2.scene ob.1
          (fun k => { k with mnBAFixedForKF := p }) (fun _ => rfl) (fun _ => rfl) id
      by_cases hc : kf.mnBALocalForKF ≠ p ∧ kf.mnBAFixedForKF ≠ p
      · rw [if_pos hc]
        cases hb : kf.isBad
        · simp only [Bool.false_eq_true, ↓reduceIte]
          intro id hid
          rcases List.mem_append.mp hid with h1 | h2
          · rcases ha2 id h1 with ⟨v, hv, hvp⟩
            exact ⟨v, by rw [hpres]; exact hv, hvp⟩
          · rw [List.mem_singleton.mp h2]
            refine ⟨kf.mnBALocalForKF, ?_, hc.1⟩
            rw [hpres]
            unfold stampOf
            rw [h]
            rfl
        · simp only [↓reduceIte]
          intro id hid
          rcases ha2 id hid with ⟨v, hv, hvp⟩
          exact ⟨v, by rw [hpres]; exact hv, hvp⟩
      · rw [if_neg hc]
        exact ha2
  · intro id hid
    simp at hid

theorem poseOf_congr {s t : SceneGraph} (h : s.keyFrames = t.keyFrames) (i : ℕ) :
    poseOf s i = poseOf t i := by
  unfold poseOf
  rw [findKF_congr h]

theorem stampOf_congr {s t : SceneGraph} (h : s.keyFrames = t.keyFrames) (i : ℕ) :
    stampOf s i = stampOf t i := by
  unfold stampOf
  rw [findKF_congr h]

theorem poseOf_selectLocalKFs (s : SceneGraph) (p : ℕ) (i : ℕ) :
    poseOf (selectLocalKFs s p).scene i = poseOf s i := by
  unfold selectLocalKFs
  simp only
  rw [foldl_pres (fun (o : SelOut) => poseOf o.scene i)]
  · show poseOf (updateKF s p (fun kf => { kf with mnBALocalForKF := p })) i = poseOf s i
    exact poseOf_updateKF_pres s p (fun kf => { kf with mnBALocalForKF := p })
      (fun _ => rfl) (fun _ => rfl) i
  · intro a x _
    dsimp only
    have hu : poseOf (updateKF a.scene x (fun kf => { kf with mnBALocalForKF := p })) i
        = poseOf a.scene i := poseOf_updateKF_pres a.scene x
      (fun kf => { kf with mnBALocalForKF := p }) (fun _ => rfl) (fun _ => rfl) i
    cases h : findKF (updateKF a.scene x (fun kf => { kf with mnBALocalForKF := p })) x with
    | none => simpa [h] using hu
    | some kf => cases hb : kf.isBad <;> simp [h, hb, hu]

theorem poseOf_selectFixedCams (s : SceneGraph) (p : ℕ) (l : List ℕ) (i : ℕ) :
    poseOf (selectFixedCams s p l).scene i = poseOf s i := by
  unfold selectFixedCams
  rw [foldl_pres (fun (o : SelOut) => poseOf o.scene i)]
  intro a x _
  dsimp only
  rw [foldl_pres (fun (o : SelOut) => poseOf o.scene i)]
  intro a2 ob _
  dsimp only
  cases h : findKF a2.scene ob.1 with
  | none => simp [h]
  | some kf =>
    have hpres := poseOf_updateKF_pres a2.scene ob.1
      (fun k => { k with mnBAFixedForKF := p }) (fun _ => rfl) (fun _ => rfl) i
    by_cases hc : kf.mnBALocalForKF ≠ p ∧ kf.mnBAFixedForKF ≠ p
    · cases hb : kf.isBad <;> simp [h, hc, hb, hpres]
    · simp [h, hc]

theorem poseOf_localKFStep (env : Env) (acc : KFVertOut) (kfId i : ℕ) :
    poseOf (localKFStep env acc kfId).scene i = poseOf acc.scene i := by
  unfold localKFStep
  cases h : findKF acc.scene kfId with
  | none => simp [h]
  | some kf =>
    simp only [h]
    rw [foldl_pres (fun (o : SelOut) => poseOf o.scene i)]
    intro a lid _
    dsimp only
    cases hl : findLM a.scene lid with
    | none => rfl
    | some lm =>
      simp only [hl]
      exact poseOf_updateKF_pres a.scene kfId
        (fun k =>
          { k with landmarkMeasurements :=
              mapSet k.landmarkMeasurements lid (env.transformTo lm.cuboid kf.camPoseTwc) })
        (fun _ => rfl) (fun _ => rfl) i

theorem poseOf_addLocalKFVertices (env : Env) (s : SceneGraph) (l : List ℕ) (i : ℕ) :
    poseOf (addLocalKFVertices env s l).scene i = poseOf s i := by
  unfold addLocalKFVertices
  rw [foldl_pres (fun (o : KFVertOut) => poseOf o.scene i)]
  intro a x _
  exact poseOf_localKFStep env a x i

theorem poseOf_commitErase (s : SceneGraph) (v : List (ℕ × ℕ)) (i : ℕ) :
    poseOf (commitErase s v) i = poseOf s i := by
  unfold commitErase
  rw [foldl_pres (fun (t : SceneGraph) => poseOf t i)]
  intro a pr _
  have h1 : poseOf (updateKF a pr.1 (fun kf => eraseMapPointMatch kf pr.2)) i = poseOf a i :=
    poseOf_updateKF_pres a pr.1 (fun kf => eraseMapPointMatch kf pr.2)
      (fun _ => rfl) (fun _ => rfl) i
  calc poseOf (updateMP (updateKF a pr.1 (fun kf => eraseMapPointMatch kf pr.2)) pr.2
        (fun p => eraseObservation p pr.1)) i
      = poseOf (updateKF a pr.1 (fun kf => eraseMapPointMatch kf pr.2)) i := rfl
    _ = poseOf a i := h1

theorem poseOf_commitLandmarks (s : SceneGraph) (est : List Vertex) (l : List ℕ)
    (M i : ℕ) : poseOf (commitLandmarks s est l M) i = poseOf s i := by
  unfold commitLandmarks
  rw [foldl_pres (fun (t : SceneGraph) => poseOf t i)]
  intro a x _
  cases h : findVertex est (landmarkVertexId M x) with
  | none => rfl
  | some v => cases hv : v.est <;> simp [h, hv] <;> rfl

theorem poseOf_commitPoints (s : SceneGraph) (est : List Vertex) (l : List ℕ)
    (M i : ℕ) : poseOf (commitPoints s est l M) i = poseOf s i := by
  unfold commitPoints
  rw [foldl_pres (fun (t : SceneGraph) => poseOf t i)]
  intro a x _
  cases h : findVertex est (pointRecoveryId M x) with
  | none => rfl
  | some v => cases hv : v.est <;> simp [h, hv] <;> rfl

theorem poseOf_commitPoses_notMem (est : List Vertex) (i : ℕ) :
    ∀ (l : List ℕ), i ∉ l → ∀ (s : SceneGraph),
      poseOf (commitPoses s est l) i = poseOf s i := by
  intro l
  induction l with
  | nil => intro _ s; rfl
  | cons x t ih =>
    intro hni s
    have hx : i ≠ x := fun h => hni (h ▸ List.mem_cons_self x t)
    have ht : i ∉ t := fun h => hni (List.mem_cons_of_mem x h)
    unfold commitPoses
    rw [List.foldl_cons]
    have hstep : ∀ (s2 : SceneGraph), poseOf
        (match findVertex est x with
         | some v =>
           match v.est with
           | .se3 p => updateKF s2 x (fun kf => { kf with pose := p })
           | _ => s2
         | none => s2) i = poseOf s2 i := by
      intro s2
      cases h : findVertex est x with
      | none => rfl
      | some v =>
        cases hv : v.est with
        | se3 q =>
          simp only [h, hv]
          unfold poseOf
          rw [@findKF_updateKF_ne s2 x (fun kf => { kf with pose := q }) (fun _ => rfl) i hx]
        | cuboid c => simp [h, hv]
        | point y => simp [h, hv]
    have := ih ht
    unfold commitPoses at this
    rw [this]
    exact hstep s

theorem local_fixed_disjoint (s0 : SceneGraph) (p : ℕ) :
    ∀ id ∈ (selectLocalKFs s0 p).ids,
      id ∉ (selectFixedCams
              (selectLocalMPs (selectLocalKFs s0 p).scene p (selectLocalKFs s0 p).ids).scene p
              (selectLocalMPs (selectLocalKFs s0 p).scene p
                (selectLocalKFs s0 p).ids).ids).ids := by
  intro id hid hmem
  rcases fixedCams_stamp_ne _ p _ id hmem with ⟨v, hv, hvp⟩
  rw [stampOf_selectFixedCams,
    stampOf_congr (keyFrames_selectLocalMPs (selectLocalKFs s0 p).scene p
      (selectLocalKFs s0 p).ids) id] at hv
  rcases localKFs_stamped s0 p id hid with hl | hl
  · exact hvp (Option.some.inj (hv.symm.trans hl))
  · rw [hl] at hv
    exact Option.noConfusion hv

theorem mem_addVertex {vs : List Vertex} {w v : Vertex} (h : v ∈ addVertex vs w) :
    v ∈ vs ∨ v = w := by
  unfold addVertex at h
  split at h
  · exact Or.inl h
  · rcases List.mem_append.mp h with h1 | h2
    · exact Or.inl h1
    · exact Or.inr (List.mem_singleton.mp h2)

theorem isSE3_excl {e : VertexEst} (h : e.isSE3 = true) :
    e.isCuboid = false ∧ e.isPoint = false := by
  cases e <;> simp_all [VertexEst.isSE3, VertexEst.isCuboid, VertexEst.isPoint]

theorem isCuboid_excl {e : VertexEst} (h : e.isCuboid = true) :
    e.isSE3 = false ∧ e.isPoint = false := by
  cases e <;> simp_all [VertexEst.isSE3, VertexEst.isCuboid, VertexEst.isPoint]

theorem setEst_kinds (o x : VertexEst) :
    (setEst o x).isSE3 = o.isSE3 ∧ (setEst o x).isCuboid = o.isCuboid ∧
    (setEst o x).isPoint = o.isPoint := by
  cases o <;> cases x <;>
    simp [setEst, VertexEst.isSE3, VertexEst.isCuboid, VertexEst.isPoint]

theorem runOptimize_vertices (env : Env) (n : ℕ) (g : OptGraph) :
    ∀ v2 ∈ runOptimize env n g, ∃ v ∈ g.vertices, v2.vid = v.vid ∧
      v2.isFixed = v.isFixed ∧ v2.est.isSE3 = v.est.isSE3 ∧
      v2.est.isCuboid = v.est.isCuboid ∧ v2.est.isPoint = v.est.isPoint := by
  intro v2 h2
  rcases List.mem_map.mp h2 with ⟨v, hv, heq⟩
  refine ⟨v, hv, ?_⟩
  rw [← heq]
  by_cases hf : v.isFixed = true
  · simp [hf]
  · simp only [hf, Bool.false_eq_true, ↓reduceIte]
    exact ⟨trivial, trivial, (setEst_kinds v.est _).1, (setEst_kinds v.est _).2.1,
      (setEst_kinds v.est _).2.2⟩

theorem vertices_cuboidFold (s : SceneGraph) (M : ℕ) (kf : KeyFrame) :
    ∀ (l : List ℕ) (g : OptGraph),
      (l.foldl (cuboidEdgeStep s M kf) g).vertices = g.vertices := by
  intro l g
  rw [foldl_pres OptGraph.vertices]
  intro a x _
  unfold cuboidEdgeStep
  cases h : findLM s x <;> rfl

theorem vertices_obsStep (s : SceneGraph) (M vid mp : ℕ) (g : OptGraph) (ob : ℕ × ℕ) :
    (obsStep s M vid mp g ob).vertices = g.vertices := by
  unfold obsStep
  cases h : findKF s ob.1 with
  | none => rfl
  | some kf =>
    cases hb : kf.isBad
    · simp only [hb, Bool.false_eq_true, ↓reduceIte]
      by_cases hm : kf.mvuRight.getD ob.2 0 < 0
      · simp only [hm, if_true]
        unfold addCuboidEdges
        rw [vertices_cuboidFold]
      · simp only [hm, if_false]
    · simp only [hb, ↓reduceIte]

theorem fixedFold_max_mono (s : SceneGraph) :
    ∀ (l : List ℕ) (acc : VertMax), acc.maxId ≤ (l.foldl (fixedKFStep s) acc).maxId := by
  intro l
  induction l with
  | nil => intro acc; exact le_refl _
  | cons x t ih =>
    intro acc
    rw [List.foldl_cons]
    refine le_trans ?_ (ih (fixedKFStep s acc x))
    unfold fixedKFStep
    cases h : findKF s x with
    | none => exact le_refl _
    | some kf =>
      simp only [h]
      split <;> omega

theorem fixedFold_max_ge (s : SceneGraph) :
    ∀ (l : List ℕ) (acc : VertMax) (id : ℕ), id ∈ l → (findKF s id).isSome = true →
      id ≤ (l.foldl (fixedKFStep s) acc).maxId := by
  intro l
  induction l with
  | nil => intro _ _ h; simp at h
  | cons x t ih =>
    intro acc id hid hsome
    rw [List.foldl_cons]
    rcases List.mem_cons.mp hid with h1 | h2
    · subst h1
      refine le_trans ?_ (fixedFold_max_mono s t (fixedKFStep s acc id))
      unfold fixedKFStep
      cases h : findKF s id with
      | none => rw [h] at hsome; simp at hsome
      | some kf =>
        simp only [h]
        have : kf.mnId = id := findKF_mnId h
        split <;> omega
    · exact ih (fixedKFStep s acc x) id h2 hsome

theorem localKFStep_vertices (env : Env) (a : KFVertOut) (x : ℕ) :
    (localKFStep env a x).vertices =
      match findKF a.scene x with
      | none => a.vertices
      | some kf => addVertex a.vertices
          { vid := kf.mnId, est := .se3 kf.pose, isFixed := kf.mnId == 0,
            marginalized := false } := by
  unfold localKFStep
  cases h : findKF a.scene x <;> simp [h]

theorem localKFStep_max (env : Env) (a : KFVertOut) (x : ℕ) :
    (localKFStep env a x).maxKFId =
      match findKF a.scene x with
      | none => a.maxKFId
      | some kf => if kf.mnId > a.maxKFId then kf.mnId else a.maxKFId := by
  unfold localKFStep
  cases h : findKF a.scene x <;> simp [h]

theorem localKF_vertices_inv (env : Env) (p : ℕ) (l : List ℕ) (acc : KFVertOut)
    (hstamp : ∀ id ∈ l, stampOf acc.scene id = some p ∨ stampOf acc.scene id = none)
    (hvert : ∀ v ∈ acc.vertices, v.est.isSE3 = true ∧ v.vid ≤ acc.maxKFId ∧
      v.isFixed = (v.vid == 0) ∧ stampOf acc.scene v.vid = some p) :
    ∀ v ∈ (List.foldl (localKFStep env) acc l).vertices,
      v.est.isSE3 = true ∧ v.vid ≤ (List.foldl (localKFStep env) acc l).maxKFId ∧
      v.isFixed = (v.vid == 0) ∧
      stampOf (List.foldl (localKFStep env) acc l).scene v.vid = some p := by
  have main := foldl_inv (fun (a : KFVertOut) =>
      (∀ id ∈ l, stampOf a.scene id = some p ∨ stampOf a.scene id = none) ∧
      (∀ v ∈ a.vertices, v.est.isSE3 = true ∧ v.vid ≤ a.maxKFId ∧
        v.isFixed = (v.vid == 0) ∧ stampOf a.scene v.vid = some p))
    (localKFStep env) l acc ?_ ⟨hstamp, hvert⟩
  · exact main.2
  · intro a x hx hP
    constructor
    · intro id hid
      rw [stampOf_localKFStep]
      exact hP.1 id hid
    · intro v hv
      rw [localKFStep_vertices] at hv
      rw [localKFStep_max]
      rw [stampOf_localKFStep]
      cases h : findKF a.scene x with
      | none =>
        rw [h] at hv
        exact hP.2 v hv
      | some kf =>
        rw [h] at hv
        simp only [h]
        rcases mem_addVertex hv with hold | hnew
        · rcases hP.2 v hold with ⟨h1, h2, h3, h4⟩
          refine ⟨h1, ?_, h3, h4⟩
          split <;> omega
        · rw [hnew]
          have hmn : kf.mnId = x := findKF_mnId h
          refine ⟨rfl, by dsimp only; split <;> omega, rfl, ?_⟩
          have hsx : stampOf a.scene kf.mnId = some kf.mnBALocalForKF := by
            unfold stampOf
            rw [hmn, h]
            rfl
          rcases hP.1 x hx with hs | hs
          · rw [hmn]; exact hs
          · rw [hmn] at hsx
            rw [hsx] at hs
            exact Option.noConfusion hs

theorem fixedKF_vertices_inv (sD : SceneGraph) (p : ℕ) (l : List ℕ) (acc : VertMax)
    (hvert : ∀ v ∈ acc.vertices, v.est.isSE3 = true ∧ v.vid ≤ acc.maxId ∧
      (v.isFixed = true ∨ (v.isFixed = (v.vid == 0) ∧ stampOf sD v.vid = some p))) :
    ∀ v ∈ (l.foldl (fixedKFStep sD) acc).vertices,
      v.est.isSE3 = true ∧ v.vid ≤ (l.foldl (fixedKFStep sD) acc).maxId ∧
      (v.isFixed = true ∨ (v.isFixed = (v.vid == 0) ∧ stampOf sD v.vid = some p)) := by
  refine foldl_inv (fun (a : VertMax) =>
      ∀ v ∈ a.vertices, v.est.isSE3 = true ∧ v.vid ≤ a.maxId ∧
        (v.isFixed = true ∨ (v.isFixed = (v.vid == 0) ∧ stampOf sD v.vid = some p)))
    (fixedKFStep sD) l acc ?_ hvert
  intro a x _ hP v hv
  unfold fixedKFStep at hv ⊢
  cases h : findKF sD x with
  | none =>
    rw [h] at hv
    simp only [h]
    exact hP v hv
  | some kf =>
    rw [h] at hv
    simp only [h] at hv ⊢
    rcases mem_addVertex hv with hold | hnew
    · rcases hP v hold with ⟨h1, h2, h3⟩
      refine ⟨h1, ?_, h3⟩
      split <;> omega
    · rw [hnew]
      exact ⟨rfl, by dsimp only; split <;> omega, Or.inl rfl⟩

theorem landmark_vertices_inv (sD : SceneGraph) (sL : SceneGraph) (p M : ℕ) (l : List ℕ)
    (acc : VertMax)
    (hvert : ∀ v ∈ acc.vertices, SE3VertexInv sD p M v) :
    ∀ v ∈ (l.foldl (landmarkStep sL M) acc).vertices,
      SE3VertexInv sD p M v ∨ CuboidVertexInv M (l.foldl (landmarkStep sL M) acc).maxId v := by
  refine foldl_inv (fun (a : VertMax) =>
      ∀ v ∈ a.vertices, SE3VertexInv sD p M v ∨ CuboidVertexInv M a.maxId v)
    (landmarkStep sL M) l acc ?_ (fun v hv => Or.inl (hvert v hv))
  intro a x _ hP v hv
  unfold landmarkStep at hv ⊢
  cases h : findLM sL x with
  | none =>
    rw [h] at hv
    simp only [h]
    exact hP v hv
  | some lm =>
    rw [h] at hv
    simp only [h] at hv ⊢
    rcases mem_addVertex hv with hold | hnew
    · rcases hP v hold with h1 | h1
      · exact Or.inl h1
      · refine Or.inr ⟨h1.1, h1.2.1, ?_⟩
        have := h1.2.2
        split <;> omega
    · rw [hnew]
      refine Or.inr ⟨rfl, ?_, ?_⟩
      · dsimp only
        unfold landmarkVertexId
        omega
      · dsimp only
        unfold landmarkVertexId
        split <;> omega

theorem build_vertices_inv (s sD : SceneGraph) (p M L : ℕ) (mps : List ℕ)
    (vs : List Vertex)
    (hvs : ∀ v ∈ vs, SE3VertexInv sD p M v ∨ CuboidVertexInv M L v) :
    ∀ v ∈ (buildPointEdges s mps M L vs).vertices,
      SE3VertexInv sD p M v ∨ CuboidVertexInv M L v ∨ PointVertexInv M L v := by
  unfold buildPointEdges
  refine foldl_inv (fun (g : OptGraph) =>
      ∀ v ∈ g.vertices, SE3VertexInv sD p M v ∨ CuboidVertexInv M L v ∨ PointVertexInv M L v)
    (pointStep s M L) mps _ ?_
    (fun v hv => (hvs v hv).elim Or.inl (fun h => Or.inr (Or.inl h)))
  intro a pid _ hP v hv
  unfold pointStep at hv
  cases h : findMP s pid with
  | none =>
    rw [h] at hv
    exact hP v hv
  | some pt =>
    rw [h] at hv
    simp only at hv
    rw [foldl_pres OptGraph.vertices _ _ _
      (fun g2 ob _ => vertices_obsStep s M _ _ g2 ob)] at hv
    rcases mem_addVertex hv with hold | hnew
    · exact hP v hold
    · rw [hnew]
      refine Or.inr (Or.inr ⟨rfl, ?_⟩)
      dsimp only
      unfold pointVertexId
      omega

theorem lbaStage4_sceneAtBuild (env : Env) (pKFid : ℕ) (stopFlag : Option (Bool × Bool))
    (lk lm fc : List ℕ) (kfv : KFVertOut) :
    (lbaStage4 env pKFid stopFlag lk lm fc kfv).sceneAtBuild = kfv.scene := by
  unfold lbaStage4
  split <;> rfl

theorem lbaStage4_fixedCams (env : Env) (pKFid : ℕ) (stopFlag : Option (Bool × Bool))
    (lk lm fc : List ℕ) (kfv : KFVertOut) :
    (lbaStage4 env pKFid stopFlag lk lm fc kfv).fixedCams = fc := by
  unfold lbaStage4
  split <;> rfl

theorem lbaStage4_localKFs (env : Env) (pKFid : ℕ) (stopFlag : Option (Bool × Bool))
    (lk lm fc : List ℕ) (kfv : KFVertOut) :
    (lbaStage4 env pKFid stopFlag lk lm fc kfv).localKFs = lk := by
  unfold lbaStage4
  split <;> rfl

theorem lbaStage4_maxKFId (env : Env) (pKFid : ℕ) (stopFlag : Option (Bool × Bool))
    (lk lm fc : List ℕ) (kfv : KFVertOut) :
    (lbaStage4 env pKFid stopFlag lk lm fc kfv).maxKFId =
      (addFixedKFVertices kfv.scene fc kfv.vertices kfv.maxKFId).maxId := by
  unfold lbaStage4
  split <;> rfl

theorem inv_transport (sD : SceneGraph) (p M L : ℕ) {v2 v : Vertex}
    (hvid : v2.vid = v.vid) (hfix : v2.isFixed = v.isFixed)
    (hs : v2.est.isSE3 = v.est.isSE3) (hc : v2.est.isCuboid = v.est.isCuboid)
    (hp : v2.est.isPoint = v.est.isPoint) :
    (SE3VertexInv sD p M v ∨ CuboidVertexInv M L v ∨ PointVertexInv M L v) →
    SE3VertexInv sD p M v2 ∨ CuboidVertexInv M L v2 ∨ PointVertexInv M L v2 := by
  unfold SE3VertexInv CuboidVertexInv PointVertexInv
  rw [hvid, hfix, hs, hc, hp]
  exact id

theorem lbaStage4_vertices_inv (env : Env) (pKFid : ℕ) (stopFlag : Option (Bool × Bool))
    (lk lm fc : List ℕ) (kfv : KFVertOut)
    (hkfv : ∀ v ∈ kfv.vertices, v.est.isSE3 = true ∧ v.vid ≤ kfv.maxKFId ∧
      v.isFixed = (v.vid == 0) ∧ stampOf kfv.scene v.vid = some pKFid) :
    ∀ v ∈ (lbaStage4 env pKFid stopFlag lk lm fc kfv).graph.vertices,
      SE3VertexInv kfv.scene pKFid (lbaStage4 env pKFid stopFlag lk lm fc kfv).maxKFId v ∨
      CuboidVertexInv (lbaStage4 env pKFid stopFlag lk lm fc kfv).maxKFId
        (lbaStage4 env pKFid stopFlag lk lm fc kfv).maxLandmarkId v ∨
      PointVertexInv (lbaStage4 env pKFid stopFlag lk lm fc kfv).maxKFId
        (lbaStage4 env pKFid stopFlag lk lm fc kfv).maxLandmarkId v := by
  have hfx : ∀ v ∈ (addFixedKFVertices kfv.scene fc kfv.vertices kfv.maxKFId).vertices,
      SE3VertexInv kfv.scene pKFid
        (addFixedKFVertices kfv.scene fc kfv.vertices kfv.maxKFId).maxId v := by
    unfold addFixedKFVertices
    intro v hv
    exact fixedKF_vertices_inv kfv.scene pKFid fc ⟨kfv.vertices, kfv.maxKFId⟩
      (fun v hv => by
        rcases hkfv v hv with ⟨h1, h2, h3, h4⟩
        exact ⟨h1, h2, Or.inr ⟨h3, h4⟩⟩) v hv
  have hlm : ∀ v ∈ (addLandmarkVertices kfv.scene kfv.lmIds
      (addFixedKFVertices kfv.scene fc kfv.vertices kfv.maxKFId).maxId
      (addFixedKFVertices kfv.scene fc kfv.vertices kfv.maxKFId).vertices).vertices,
      SE3VertexInv kfv.scene pKFid
        (addFixedKFVertices kfv.scene fc kfv.vertices kfv.maxKFId).maxId v ∨
      CuboidVertexInv (addFixedKFVertices kfv.scene fc kfv.vertices kfv.maxKFId).maxId
        (addLandmarkVertices kfv.scene kfv.lmIds
          (addFixedKFVertices kfv.scene fc kfv.vertices kfv.maxKFId).maxId
          (addFixedKFVertices kfv.scene fc kfv.vertices kfv.maxKFId).vertices).maxId v := by
    unfold addLandmarkVertices
    intro v hv
    exact landmark_vertices_inv kfv.scene kfv.scene pKFid
      (addFixedKFVertices kfv.scene fc kfv.vertices kfv.maxKFId).maxId kfv.lmIds
      ⟨(addFixedKFVertices kfv.scene fc kfv.vertices kfv.maxKFId).vertices, 0⟩
      (fun v hv => hfx v hv) v hv
  have hbd : ∀ v ∈ (buildPointEdges kfv.scene lm
      (addFixedKFVertices kfv.scene fc kfv.vertices kfv.maxKFId).maxId
      (addLandmarkVertices kfv.scene kfv.lmIds
        (addFixedKFVertices kfv.scene fc kfv.vertices kfv.maxKFId).maxId
        (addFixedKFVertices kfv.scene fc kfv.vertices kfv.maxKFId).vertices).maxId
      (addLandmarkVertices kfv.scene kfv.lmIds
        (addFixedKFVertices kfv.scene fc kfv.vertices kfv.maxKFId).maxId
        (addFixedKFVertices kfv.scene fc kfv.vertices kfv.maxKFId).vertices).vertices).vertices,
      SE3VertexInv kfv.scene pKFid
        (addFixedKFVertices kfv.scene fc kfv.vertices kfv.maxKFId).maxId v ∨
      CuboidVertexInv (addFixedKFVertices kfv.scene fc kfv.vertices kfv.maxKFId).maxId
        (addLandmarkVertices kfv.scene kfv.lmIds
          (addFixedKFVertices kfv.scene fc kfv.vertices kfv.maxKFId).maxId
          (addFixedKFVertices kfv.scene fc kfv.vertices kfv.maxKFId).vertices).maxId v ∨
      PointVertexInv (addFixedKFVertices kfv.scene fc kfv.vertices kfv.maxKFId).maxId
        (addLandmarkVertices kfv.scene kfv.lmIds
          (addFixedKFVertices kfv.scene fc kfv.vertices kfv.maxKFId).maxId
          (addFixedKFVertices kfv.scene fc kfv.vertices kfv.maxKFId).vertices).maxId v :=
    build_vertices_inv kfv.scene kfv.scene pKFid _ _ lm _ hlm
  unfold lbaStage4
  by_cases hstop : stopAtFirstCheck stopFlag = true
  · simp only [hstop, if_true]
    exact hbd
  · simp only [hstop, Bool.false_eq_true, if_false, ↓reduceIte]
    by_cases hb2 : stopAtSecondCheck stopFlag = true
    · simp only [hb2, Bool.not_true, Bool.false_eq_true, if_false, ↓reduceIte]
      intro v2 hv2
      rcases runOptimize_vertices env 5 _ v2 hv2 with ⟨v, hv, h1, h2, h3, h4, h5⟩
      exact inv_transport _ _ _ _ h1 h2 h3 h4 h5 (hbd v hv)
    · simp only [hb2, Bool.not_false, if_true, ↓reduceIte]
      intro v2 hv2
      rcases runOptimize_vertices env 10 _ v2 hv2 with ⟨v1, hv1, h1, h2, h3, h4, h5⟩
      rcases runOptimize_vertices env 5 _ v1 hv1 with ⟨v, hv, g1, g2, g3, g4, g5⟩
      exact inv_transport _ _ _ _ (h1.trans g1) (h2.trans g2) (h3.trans g3)
        (h4.trans g4) (h5.trans g5) (hbd v hv)

theorem lbaStage4_poseOf (env : Env) (pKFid : ℕ) (stopFlag : Option (Bool × Bool))
    (lk lm fc : List ℕ) (kfv : KFVertOut) (i : ℕ) (hi : i ∉ lk) :
    poseOf (lbaStage4 env pKFid stopFlag lk lm fc kfv).scene i = poseOf kfv.scene i := by
  unfold lbaStage4
  by_cases hstop : stopAtFirstCheck stopFlag = true
  · simp only [hstop, if_true]
  · simp only [hstop, Bool.false_eq_true, if_false, ↓reduceIte]
    rw [poseOf_commitPoints, poseOf_commitLandmarks, poseOf_commitPoses_notMem _ _ _ hi,
      poseOf_commitErase]

theorem isPoint_excl {e : VertexEst} (h : e.isPoint = true) :
    e.isSE3 = false ∧ e.isCuboid = false := by
  cases e <;> simp_all [VertexEst.isSE3, VertexEst.isCuboid, VertexEst.isPoint]

theorem lba_vertices_inv (env : Env) (s0 : SceneGraph) (pKFid : ℕ)
    (stopFlag : Option (Bool × Bool)) :
    ∀ v ∈ (LocalBundleAdjustment env s0 pKFid stopFlag).graph.vertices,
      SE3VertexInv (LocalBundleAdjustment env s0 pKFid stopFlag).sceneAtBuild pKFid
        (LocalBundleAdjustment env s0 pKFid stopFlag).maxKFId v ∨
      CuboidVertexInv (LocalBundleAdjustment env s0 pKFid stopFlag).maxKFId
        (LocalBundleAdjustment env s0 pKFid stopFlag).maxLandmarkId v ∨
      PointVertexInv (LocalBundleAdjustment env s0 pKFid stopFlag).maxKFId
        (LocalBundleAdjustment env s0 pKFid stopFlag).maxLandmarkId v := by
  unfold LocalBundleAdjustment lbaStage1 lbaStage2 lbaStage3
  rw [lbaStage4_sceneAtBuild]
  refine lbaStage4_vertices_inv env pKFid stopFlag _ _ _ _ ?_
  have hstamp : ∀ id ∈ (selectLocalKFs s0 pKFid).ids,
      stampOf (selectFixedCams
        (selectLocalMPs (selectLocalKFs s0 pKFid).scene pKFid
          (selectLocalKFs s0 pKFid).ids).scene pKFid
        (selectLocalMPs (selectLocalKFs s0 pKFid).scene pKFid
          (selectLocalKFs s0 pKFid).ids).ids).scene id = some pKFid ∨
      stampOf (selectFixedCams
        (selectLocalMPs (selectLocalKFs s0 pKFid).scene pKFid
          (selectLocalKFs s0 pKFid).ids).scene pKFid
        (selectLocalMPs (selectLocalKFs s0 pKFid).scene pKFid
          (selectLocalKFs s0 pKFid).ids).ids).scene id = none := by
    intro id hid
    rw [stampOf_selectFixedCams,
      stampOf_congr (keyFrames_selectLocalMPs (selectLocalKFs s0 pKFid).scene pKFid
        (selectLocalKFs s0 pKFid).ids)]
    exact localKFs_stamped s0 pKFid id hid
  unfold addLocalKFVertices
  exact localKF_vertices_inv env pKFid (selectLocalKFs s0 pKFid).ids
    ⟨[], _, [], 0⟩ hstamp (fun v hv => by simp at hv)

/-- C2: the three variable-id ranges of the optimizer graph never overlap.
Every pose vertex (SE3 estimate) has id at most `maxKFId`; every cuboid vertex
has id in `(maxKFId, maxKFId + 1 + maxLandmarkId]` (the `landmarkVertexId`
formula); every point vertex has id strictly above `maxKFId + 1 +
maxLandmarkId`; hence across kinds, pose ids < cuboid ids < point ids — in
particular every point id is strictly above every pose and landmark id, for
any window and any stop-flag value. -/
theorem vertex_id_ranges_disjoint (env : Env) (s0 : SceneGraph) (pKFid : ℕ)
    (stopFlag : Option (Bool × Bool)) :
    (∀ v ∈ (LocalBundleAdjustment env s0 pKFid stopFlag).graph.vertices,
        v.est.isSE3 = true → v.vid ≤ (LocalBundleAdjustment env s0 pKFid stopFlag).maxKFId) ∧
    (∀ v ∈ (LocalBundleAdjustment env s0 pKFid stopFlag).graph.vertices,
        v.est.isCuboid = true →
          (LocalBundleAdjustment env s0 pKFid stopFlag).maxKFId < v.vid ∧
          v.vid ≤ landmarkVertexId (LocalBundleAdjustment env s0 pKFid stopFlag).maxKFId
            (LocalBundleAdjustment env s0 pKFid stopFlag).maxLandmarkId) ∧
    (∀ v ∈ (LocalBundleAdjustment env s0 pKFid stopFlag).graph.vertices,
        v.est.isPoint = true →
          landmarkVertexId (LocalBundleAdjustment env s0 pKFid stopFlag).maxKFId
            (LocalBundleAdjustment env s0 pKFid stopFlag).maxLandmarkId < v.vid) ∧
    (∀ u ∈ (LocalBundleAdjustment env s0 pKFid stopFlag).graph.vertices,
      ∀ w ∈ (LocalBundleAdjustment env s0 pKFid stopFlag).graph.vertices,
        ((u.est.isSE3 = true ∧ w.est.isCuboid = true) ∨
         (u.est.isSE3 = true ∧ w.est.isPoint = true) ∨
         (u.est.isCuboid = true ∧ w.est.isPoint = true)) → u.vid < w.vid) := by
  have hinv := lba_vertices_inv env s0 pKFid stopFlag
  simp only [SE3VertexInv, CuboidVertexInv, PointVertexInv] at hinv
  have hA : ∀ v ∈ (LocalBundleAdjustment env s0 pKFid stopFlag).graph.vertices,
      v.est.isSE3 = true → v.vid ≤ (LocalBundleAdjustment env s0 pKFid stopFlag).maxKFId := by
    intro v hv hk
    rcases hinv v hv with h | h | h
    · exact h.2.1
    · rw [(isCuboid_excl h.1).1] at hk
      exact Bool.noConfusion hk
    · rw [(isPoint_excl h.1).1] at hk
      exact Bool.noConfusion hk
  have hB : ∀ v ∈ (LocalBundleAdjustment env s0 pKFid stopFlag).graph.vertices,
      v.est.isCuboid = true →
        (LocalBundleAdjustment env s0 pKFid stopFlag).maxKFId < v.vid ∧
        v.vid ≤ (LocalBundleAdjustment env s0 pKFid stopFlag).maxKFId + 1 +
          (LocalBundleAdjustment env s0 pKFid stopFlag).maxLandmarkId := by
    intro v hv hk
    rcases hinv v hv with h | h | h
    · rw [(isSE3_excl h.1).1] at hk
      exact Bool.noConfusion hk
    · exact ⟨by omega, h.2.2⟩
    · rw [(isPoint_excl h.1).2] at hk
      exact Bool.noConfusion hk
  have hC : ∀ v ∈ (LocalBundleAdjustment env s0 pKFid stopFlag).graph.vertices,
      v.est.isPoint = true →
        (LocalBundleAdjustment env s0 pKFid stopFlag).maxKFId + 1 +
          (LocalBundleAdjustment env s0 pKFid stopFlag).maxLandmarkId < v.vid := by
    intro v hv hk
    rcases hinv v hv with h | h | h
    · rw [(isSE3_excl h.1).2] at hk
      exact Bool.noConfusion hk
    · rw [(isCuboid_excl h.1).2] at hk
      exact Bool.noConfusion hk
    · have := h.2
      omega
  refine ⟨hA, ?_, ?_, ?_⟩
  · intro v hv hk
    have := hB v hv hk
    unfold landmarkVertexId
    omega
  · intro v hv hk
    have := hC v hv hk
    unfold landmarkVertexId
    omega
  · intro u hu w hw hcase
    rcases hcase with ⟨h1, h2⟩ | ⟨h1, h2⟩ | ⟨h1, h2⟩
    · have ha := hA u hu h1
      have hb := hB w hw h2
      omega
    · have ha := hA u hu h1
      have hc := hC w hw h2
      omega
    · have hb := hB u hu h1
      have hc := hC w hw h2
      omega

/-- Witness for `vertex_id_ranges_disjoint` on `sceneC`: the pose vertex of
KeyFrame 1 and the point vertex of MapPoint 10 (id 21 = 10 + 2 + 7 + 2). -/
theorem vertex_id_ranges_disjoint_witness :
    (⟨1, .se3 0, false, false⟩ : Vertex) ∈
      (LocalBundleAdjustment idEnv sceneC 1 none).graph.vertices ∧
    (⟨21, .point 0, false, true⟩ : Vertex) ∈
      (LocalBundleAdjustment idEnv sceneC 1 none).graph.vertices ∧
    (⟨1, .se3 0, false, false⟩ : Vertex).vid < (⟨21, .point 0, false, true⟩ : Vertex).vid := by
  refine ⟨by decide, by decide, ?_⟩
  exact (vertex_id_ranges_disjoint idEnv sceneC 1 none).2.2.2
    ⟨1, .se3 0, false, false⟩ (by decide) ⟨21, .point 0, false, true⟩ (by decide)
    (Or.inr (Or.inl ⟨by decide, by decide⟩))

/-- C8: fixed cameras are untouched. Every vertex carrying a fixed camera's id
is marked non-optimizable (as is any vertex with id 0), and the stored pose of
every KeyFrame in the Fixed Cameras set is the same after the procedure as
before it — the commit's pose write-back iterates only over Local KeyFrames,
which are disjoint from the fixed set by the stamp discipline. -/
theorem fixed_cameras_unchanged (env : Env) (s0 : SceneGraph) (pKFid : ℕ)
    (stopFlag : Option (Bool × Bool)) :
    (∀ kfId ∈ (LocalBundleAdjustment env s0 pKFid stopFlag).fixedCams,
        poseOf (LocalBundleAdjustment env s0 pKFid stopFlag).scene kfId = poseOf s0 kfId ∧
        (∀ v ∈ (LocalBundleAdjustment env s0 pKFid stopFlag).graph.vertices,
            v.vid = kfId → v.isFixed = true)) ∧
    (∀ v ∈ (LocalBundleAdjustment env s0 pKFid stopFlag).graph.vertices,
        v.vid = 0 → v.isFixed = true) := by
  have hinv := lba_vertices_inv env s0 pKFid stopFlag
  simp only [SE3VertexInv, CuboidVertexInv, PointVertexInv] at hinv
  constructor
  · intro kfId hmem
    unfold LocalBundleAdjustment lbaStage1 lbaStage2 lbaStage3 at hmem hinv ⊢
    rw [lbaStage4_fixedCams] at hmem
    rw [lbaStage4_sceneAtBuild] at hinv
    have hni : kfId ∉ (selectLocalKFs s0 pKFid).ids :=
      fun hl => local_fixed_disjoint s0 pKFid kfId hl hmem
    constructor
    · rw [lbaStage4_poseOf env pKFid stopFlag _ _ _ _ kfId hni,
        poseOf_addLocalKFVertices, poseOf_selectFixedCams,
        poseOf_congr (keyFrames_selectLocalMPs (selectLocalKFs s0 pKFid).scene pKFid
          (selectLocalKFs s0 pKFid).ids), poseOf_selectLocalKFs]
    · intro v hv hvid
      have hstamp : ∃ v0, stampOf (addLocalKFVertices env
          (selectFixedCams
            (selectLocalMPs (selectLocalKFs s0 pKFid).scene pKFid
              (selectLocalKFs s0 pKFid).ids).scene pKFid
            (selectLocalMPs (selectLocalKFs s0 pKFid).scene pKFid
              (selectLocalKFs s0 pKFid).ids).ids).scene
          (selectLocalKFs s0 pKFid).ids).scene kfId = some v0 ∧ v0 ≠ pKFid := by
        rw [stampOf_addLocalKFVertices]
        exact fixedCams_stamp_ne _ pKFid _ kfId hmem
      rcases hstamp with ⟨v0, hv0, hne⟩
      have hsome : (findKF (addLocalKFVertices env
          (selectFixedCams
            (selectLocalMPs (selectLocalKFs s0 pKFid).scene pKFid
              (selectLocalKFs s0 pKFid).ids).scene pKFid
            (selectLocalMPs (selectLocalKFs s0 pKFid).scene pKFid
              (selectLocalKFs s0 pKFid).ids).ids).scene
          (selectLocalKFs s0 pKFid).ids).scene kfId).isSome = true := by
        unfold stampOf at hv0
        cases hfk : findKF (addLocalKFVertices env
            (selectFixedCams
              (selectLocalMPs (selectLocalKFs s0 pKFid).scene pKFid
                (selectLocalKFs s0 pKFid).ids).scene pKFid
              (selectLocalMPs (selectLocalKFs s0 pKFid).scene pKFid
                (selectLocalKFs s0 pKFid).ids).ids).scene
            (selectLocalKFs s0 pKFid).ids).scene kfId with
        | none => rw [hfk] at hv0; exact Option.noConfusion hv0
        | some kf => simp [hfk]
      have hle : kfId ≤ (lbaStage4 env pKFid stopFlag (selectLocalKFs s0 pKFid).ids
          (selectLocalMPs (selectLocalKFs s0 pKFid).scene pKFid
            (selectLocalKFs s0 pKFid).ids).ids
          (selectFixedCams
            (selectLocalMPs (selectLocalKFs s0 pKFid).scene pKFid
              (selectLocalKFs s0 pKFid).ids).scene pKFid
            (selectLocalMPs (selectLocalKFs s0 pKFid).scene pKFid
              (selectLocalKFs s0 pKFid).ids).ids).ids
          (addLocalKFVertices env
            (selectFixedCams
              (selectLocalMPs (selectLocalKFs s0 pKFid).scene pKFid
                (selectLocalKFs s0 pKFid).ids).scene pKFid
              (selectLocalMPs (selectLocalKFs s0 pKFid).scene pKFid
                (selectLocalKFs s0 pKFid).ids).ids).scene
            (selectLocalKFs s0 pKFid).ids)).maxKFId := by
        rw [lbaStage4_maxKFId]
        unfold addFixedKFVertices
        exact fixedFold_max_ge _ _ _ kfId hmem hsome
      rcases hinv v hv with h | h | h
      · rcases h.2.2 with hf | hf
        · exact hf
        · exfalso
          rw [hvid, hv0] at hf
          exact hne (Option.some.inj hf.2)
      · exfalso
        have h1 := h.2.1
        omega
      · exfalso
        have h1 := h.2
        omega
  · intro v hv h0
    rcases hinv v hv with h | h | h
    · rcases h.2.2 with hf | hf
      · exact hf
      · rw [hf.1, h0]
        rfl
    · exfalso
      have h1 := h.2.1
      omega
    · exfalso
      have h1 := h.2
      omega

/-- Witness for `fixed_cameras_unchanged`: KeyFrame 2 of `sceneC` is a fixed
camera and its stored pose survives the call. -/
theorem fixed_cameras_unchanged_witness :
    2 ∈ (LocalBundleAdjustment idEnv sceneC 1 none).fixedCams ∧
    poseOf (LocalBundleAdjustment idEnv sceneC 1 none).scene 2 = poseOf sceneC 2 :=
  ⟨by decide, ((fixed_cameras_unchanged idEnv sceneC 1 none).1 2 (by decide)).1⟩

end CubeSLAM
